import Mathlib

/-!
# gl_ssao: cache-aware horizon-based ambient occlusion (`ssao.cpp`)

A shallow embedding of the orchestration code of `ssao.cpp` and proofs about it.

* `float` values are read as exact rationals (`ℚ`); the table generator `initMisc`
  is generic in the scalar field so that it can be read over `ℝ` with the real
  `cos`/`sin`.
* `int` values are integers; the `int` sum `width+3` wraps to 32 bits (`wrapInt32`).
* GL calls become entries of a command trace (`GLCmd`); a loop of the source
  becomes the concatenation of the traces of its iterations.
* The GLSL programs (`hbao_deinterleave.frag.glsl`, `hbao_reinterleave.frag.glsl`,
  `depthlinearize.frag.glsl`) are not among the sources; what they compute per
  texel is modelled from the specification and marked as such.
-/

namespace ssao

/-! ## Constants (`ssao.cpp` lines 56-58) -/

/-- Number of simultaneous render targets of one deinterleave draw. -/
def NUM_MRT : Nat := 8

/-- Side of the square of sub-pixel offsets. -/
def HBAO_RANDOM_SIZE : Nat := 4

/-- Number of slices and of rotation samples. -/
def HBAO_RANDOM_ELEMENTS : Nat := HBAO_RANDOM_SIZE * HBAO_RANDOM_SIZE

/-! ## Layered buffers: deinterleave and reinterleave -/

/-- The quarter-resolution size of a dimension, `((width+3)/4)` of `initFramebuffers`
(lines 472-473), for a non-negative buffer dimension. -/
def quarterDim (w : Nat) : Nat := (w + 3) / 4

/-- A full-resolution buffer: the texel at column `x`, row `y`. -/
abbrev FullBuffer (α : Type) := Nat → Nat → α

/-- A layered buffer: the texel at `(qx, qy)` of layer `i`. -/
abbrev SliceArray (α : Type) := Nat → Nat → Nat → α

/-- A texel of the layered buffers: slice index and position `(i, qx, qy)`. -/
abbrev SliceTexel := Nat × Nat × Nat

/-- The full-resolution position `(qx*4 + i%4, qy*4 + i/4)` that belongs to
texel `(qx, qy)` of slice `i`. -/
def fullResPos (t : SliceTexel) : Nat × Nat :=
  (t.2.1 * 4 + t.1 % HBAO_RANDOM_SIZE, t.2.2 * 4 + t.1 / HBAO_RANDOM_SIZE)

/-- A texture coordinate clamped to the edge of a dimension of size `n`
(`GL_CLAMP_TO_EDGE` of `scene_depthlinear`, lines 418-419). -/
def clampToEdge (n c : Nat) : Nat := min c (n - 1)

/-- The source texel that the deinterleave pass reads for slice texel `t`
of a `W x H` buffer: `fullResPos t`, clamped to the buffer edge. -/
def deinterleaveSource (W H : Nat) (t : SliceTexel) : Nat × Nat :=
  (clampToEdge W (fullResPos t).1, clampToEdge H (fullResPos t).2)

/-- The slice texels of a `W x H` buffer: slice `i < 16`, `qx < ceil(W/4)`,
`qy < ceil(H/4)` (the layers and viewport of the deinterleave pass). -/
def IsSliceTexel (W H : Nat) (t : SliceTexel) : Prop :=
  t.1 < HBAO_RANDOM_ELEMENTS ∧ t.2.1 < quarterDim W ∧ t.2.2 < quarterDim H

instance (W H : Nat) (t : SliceTexel) : Decidable (IsSliceTexel W H t) := by
  unfold IsSliceTexel; infer_instance

/-- All slice texels of a `W x H` buffer, slice by slice, row by row. -/
def sliceTexels (W H : Nat) : List SliceTexel :=
  (List.range HBAO_RANDOM_ELEMENTS).flatMap fun i =>
    (List.range (quarterDim H)).flatMap fun qy =>
      (List.range (quarterDim W)).map fun qx => (i, qx, qy)

/-- Modelled from the spec: the deinterleave shader (`hbao_deinterleave.frag.glsl`) is
not among the sources. For each destination slice `i` and destination texel `(qx,qy)`
it reads source texel `(qx*4 + i%4, qy*4 + i/4)` and writes it to slice `i` at
`(qx,qy)`; the source texture clamps to its edge. -/
def deinterleave {α : Type} (W H : Nat) (D : FullBuffer α) : SliceArray α :=
  fun i qx qy =>
    D (deinterleaveSource W H (i, qx, qy)).1 (deinterleaveSource W H (i, qx, qy)).2

/-- One write of value `v` to position `p` of a `W x H` render target; a position
outside the target is discarded. -/
def writeTexel {α : Type} (W H : Nat) (buf : FullBuffer α) (p : Nat × Nat) (v : α) :
    FullBuffer α :=
  fun x y => if p.1 < W ∧ p.2 < H ∧ x = p.1 ∧ y = p.2 then v else buf x y

/-- Modelled from the spec: the reinterleave shader (`hbao_reinterleave.frag.glsl`) is
not among the sources. For each slice `i` and texel `(qx,qy)` it writes the slice
value to full-resolution position `(qx*4 + i%4, qy*4 + i/4)` of the `W x H` target
(`glViewport(0,0,width,height)`, line 723), starting from the target's old content. -/
def reinterleave {α : Type} (W H : Nat) (S : SliceArray α) (old : FullBuffer α) :
    FullBuffer α :=
  (sliceTexels W H).foldl
    (fun buf t => writeTexel W H buf (fullResPos t) (S t.1 t.2.1 t.2.2)) old

/-- The slice texel that owns full-resolution position `(x, y)`: the slice with
offset `(x % 4, y % 4)`, at `(x / 4, y / 4)`. -/
def ownerTexel (x y : Nat) : SliceTexel :=
  ((y % HBAO_RANDOM_SIZE) * HBAO_RANDOM_SIZE + x % HBAO_RANDOM_SIZE, x / 4, y / 4)

/-! ## Vectors, tunables, projection and the AO parameter record -/

/-- Two floats (`vec2`). -/
structure vec2 (F : Type) where
  x : F
  y : F
deriving DecidableEq, Repr

/-- Four floats (`vec4`, `vec4f`). -/
structure vec4 (F : Type) where
  x : F
  y : F
  z : F
  w : F
deriving DecidableEq, Repr

/-- A 4x4 matrix as its 16 floats in column-major order (`mat4::get_value`). -/
abbrev mat4 := Fin 16 → ℚ

/-- The tunables (`struct Tweak`, lines 132-145). -/
structure Tweak where
  intensity : ℚ
  bias : ℚ
  radius : ℚ
  blurSharpness : ℚ
deriving DecidableEq, Repr

/-- The values set by the constructor `Tweak()` (lines 133-139). -/
def Tweak.default : Tweak :=
  { intensity := 3 / 2, radius := 2, bias := 1 / 10, blurSharpness := 40 }

/-- The camera projection (`struct Projection`, lines 154-171). -/
structure Projection where
  nearplane : ℚ
  farplane : ℚ
  fov : ℚ
  matrix : mat4

/-- The AO parameter record (`struct HBAOData`, lines 174-191). -/
structure HBAOData where
  RadiusToScreen : ℚ
  R2 : ℚ
  NegInvR2 : ℚ
  NDotVBias : ℚ
  InvFullResolution : vec2 ℚ
  InvQuarterResolution : vec2 ℚ
  AOMultiplier : ℚ
  PowExponent : ℚ
  _pad0 : vec2 ℚ
  projInfo : vec4 ℚ
  projScale : vec2 ℚ
  projOrtho : Int
  _pad1 : Int

/-- A 32-bit two's-complement `int` result. -/
def wrapInt32 (n : Int) : Int := (n + 2147483648) % 4294967296 - 2147483648

/-- The `int` expression `((width+3)/4)` (lines 472, 592, 645): 32-bit sum,
division truncating toward zero. -/
def quarterRes (width : Int) : Int := Int.tdiv (wrapInt32 (width + 3)) 4

/-- The function `Sample::prepareHbaoData` (lines 548-597): the new value of `hbaoUbo`, from the
tunables `tweak`, the old value of `hbaoUbo`, the projection and the render-target
size. `tanf` is the C library tangent. Fields the function does not assign keep
their old value. A division by zero, which yields an infinity or NaN for `float`,
yields `0` in `ℚ`. -/
def prepareHbaoData (tanf : ℚ → ℚ) (tweak : Tweak) (hbaoUbo : HBAOData)
    (projection : Projection) (width height : Int) : HBAOData :=
  -- projection
  let P := projection.matrix
  let projInfoPerspective : vec4 ℚ :=
    { x := 2 / P (4*0+0)
      y := 2 / P (4*1+1)
      z := -(1 - P (4*2+0)) / P (4*0+0)
      w := -(1 + P (4*2+1)) / P (4*1+1) }
  let projInfoOrtho : vec4 ℚ :=
    { x := 2 / P (4*0+0)
      y := 2 / P (4*1+1)
      z := -(1 + P (4*3+0)) / P (4*0+0)
      w := -(1 - P (4*3+1)) / P (4*1+1) }
  let useOrtho : Int := 0
  let projScale : ℚ :=
    if useOrtho ≠ 0 then (height : ℚ) / 8
    else (height : ℚ) / (tanf (projection.fov * (1 / 2)) * 2)
  -- radius
  let meters2viewspace : ℚ := 1
  let R := tweak.radius * meters2viewspace
  let R2 := R * R
  -- ao
  let NDotVBias := min (max 0 tweak.bias) 1
  -- resolution
  let quarterWidth := quarterRes width
  let quarterHeight := quarterRes height
  { hbaoUbo with
    projOrtho := useOrtho
    projInfo := if useOrtho ≠ 0 then projInfoOrtho else projInfoPerspective
    R2 := R2
    NegInvR2 := -1 / R2
    RadiusToScreen := R * (1 / 2) * projScale
    PowExponent := max tweak.intensity 0
    NDotVBias := NDotVBias
    AOMultiplier := 1 / (1 - NDotVBias)
    InvQuarterResolution := { x := 1 / (quarterWidth : ℚ), y := 1 / (quarterHeight : ℚ) }
    InvFullResolution := { x := 1 / (width : ℚ), y := 1 / (height : ℚ) } }

/-- The tunables with intensity, radius and bias projected onto the valid ranges
the specification gives: intensity >= 0, radius >= 0, bias in [0, 0.1]. -/
def clampTunables (t : Tweak) : Tweak :=
  { t with
    intensity := max t.intensity 0
    radius := max t.radius 0
    bias := min (max 0 t.bias) (1 / 10) }

/-- The tunables with the clamps that `prepareHbaoData` applies (lines 587-588):
intensity >= 0 and bias in [0, 1]; the radius is taken as it is. -/
def clampTunablesCode (t : Tweak) : Tweak :=
  { t with
    intensity := max t.intensity 0
    bias := min (max 0 t.bias) 1 }

/-- The column-major OpenGL projection matrix of the perspective frustum with
left/right `L`/`R`, bottom/top `B`/`T`, near/far `N`/`F`. -/
def frustum (L R B T N F : ℚ) : mat4 := fun k =>
  match k.val with
  | 0 => 2 * N / (R - L)
  | 5 => 2 * N / (T - B)
  | 8 => (R + L) / (R - L)
  | 9 => (T + B) / (T - B)
  | 10 => -(F + N) / (F - N)
  | 11 => -1
  | 14 => -(2 * F * N) / (F - N)
  | _ => 0

/-- An `hbaoUbo` with every field zero. -/
def HBAOData.zero : HBAOData :=
  { RadiusToScreen := 0, R2 := 0, NegInvR2 := 0, NDotVBias := 0
    InvFullResolution := { x := 0, y := 0 }
    InvQuarterResolution := { x := 0, y := 0 }
    AOMultiplier := 0, PowExponent := 0
    _pad0 := { x := 0, y := 0 }
    projInfo := { x := 0, y := 0, z := 0, w := 0 }
    projScale := { x := 0, y := 0 }
    projOrtho := 0, _pad1 := 0 }

/-- A projection with the planes and field of view of the constructor `Projection()`
(lines 160-163) and a symmetric 16:9 frustum matrix. -/
def Projection.symmetric : Projection :=
  { nearplane := 1 / 10, farplane := 100, fov := 45
    matrix := frustum (-8 / 45) (8 / 45) (-1 / 10) (1 / 10) (1 / 10) 100 }

/-- The array `hbaoRandom` (line 152): exactly `HBAO_RANDOM_ELEMENTS` entries. -/
abbrev RandomTable (F : Type) := Fin HBAO_RANDOM_ELEMENTS → vec4 F

/-- The assignment `a[i] = v`; an index outside the array writes nothing. -/
def setEntry {F : Type} (a : RandomTable F) (i : Nat) (v : vec4 F) : RandomTable F :=
  fun j => if j.val = i then v else a j

/-- The read `a[i]`, `none` for an index outside the array. -/
def readEntry {F : Type} (a : RandomTable F) (i : Nat) : Option (vec4 F) :=
  if h : i < HBAO_RANDOM_ELEMENTS then some (a ⟨i, h⟩) else none

/-- One iteration of the loop of `initMisc` (lines 291-299): two draws of the
generator, then the entry `(cos Angle, sin Angle, Rand2, 0)`. The 16-bit copy `f`
(lines 301-304) is never read and is left out. -/
def initMiscStep {F σ : Type} [Field F] (nv_pi : F) (cosf sinf : F → F)
    (randExc : σ → F × σ) (st : σ × RandomTable F) (i : Nat) : σ × RandomTable F :=
  let numDir : F := 8
  let (Rand1, rng1) := randExc st.1
  let (Rand2, rng2) := randExc rng1
  let Angle : F := 2 * nv_pi * Rand1 / numDir
  (rng2, setEntry st.2 i { x := cosf Angle, y := sinf Angle, z := Rand2, w := 0 })

/-- The function `Sample::initMisc` (lines 279-309): the table `hbaoRandom` after the call. The
generator `MTRand` is given by its seeding function and by `randExc`, which returns
the drawn value and the next generator state; `old` is the table before the call. -/
def initMisc {F σ : Type} [Field F] (nv_pi : F) (cosf sinf : F → F)
    (seed : Nat → σ) (randExc : σ → F × σ) (old : RandomTable F) : RandomTable F :=
  ((List.range HBAO_RANDOM_ELEMENTS).foldl
    (initMiscStep nv_pi cosf sinf randExc) (seed 0, old)).2

/-- The generator state after `n` draws from state `s`. -/
def stateAfter {F σ : Type} (randExc : σ → F × σ) (s : σ) : Nat → σ
  | 0 => s
  | n + 1 => (randExc (stateAfter randExc s n)).2

/-- The `n`-th value (from 0) that the generator draws from state `s`. -/
def nthDraw {F σ : Type} (randExc : σ → F × σ) (s : σ) (n : Nat) : F :=
  (randExc (stateAfter randExc s n)).1

/-- The rotation sample `(cos(angle), sin(angle), r2, 0)` with
`angle = 2π·r1/numDirections`, `numDirections = 8`. -/
def rotationSample {F : Type} [Field F] (nv_pi : F) (cosf sinf : F → F) (r1 r2 : F) :
    vec4 F :=
  { x := cosf (2 * nv_pi * r1 / 8), y := sinf (2 * nv_pi * r1 / 8), z := r2, w := 0 }

/-! ## GL command traces -/

/-- The GLSL programs (`programs`, lines 74-87). -/
inductive ProgramID
  | draw_scene | depth_linearize | viewnormal | hbao_blur | hbao_blur2
  | hbao2_deinterleave | hbao2_calc_blur | hbao2_reinterleave_blur
deriving DecidableEq, Repr

/-- The framebuffer objects (`fbos`, lines 89-97). -/
inductive FboID
  | scene | depthlinear | viewnormal | hbao_calc | hbao2_deinterleave | hbao2_calc
deriving DecidableEq, Repr

/-- The textures (`textures`, lines 106-116). -/
inductive TextureID
  | scene_color | scene_depthstencil | scene_depthlinear | scene_viewnormal
  | hbao_result | hbao_blur | hbao2_deptharray | hbao2_resultarray
deriving DecidableEq, Repr

/-- Texture targets. -/
inductive TexTarget
  | GL_TEXTURE_2D | GL_TEXTURE_2D_ARRAY
deriving DecidableEq, Repr

/-- Capabilities of `glEnable`/`glDisable`. -/
inductive Capability
  | GL_DEPTH_TEST | GL_BLEND | GL_SAMPLE_MASK
deriving DecidableEq, Repr

/-- The buffer objects (`buffers`, lines 99-104). -/
inductive BufferID
  | scene_vbo | scene_ibo | scene_ubo
deriving DecidableEq, Repr

/-- The vertex attribute indices of `common.h`. -/
inductive VertexAttrib
  | VERTEX_POS | VERTEX_NORMAL | VERTEX_COLOR
deriving DecidableEq, Repr

/-- The calls of a frame: the GL calls, and the calls `m_control.processActions`,
`progManager.reloadPrograms`, `waitEvents` and `TwDraw`, whose inner work is outside
the source. An object argument `0` is `none`; a color attachment
`GL_COLOR_ATTACHMENT0 + k` is `k`; `glBindFramebuffer` has one entry per target. -/
inductive GLCmd
  | BindFramebuffer (fbo : Option FboID)
  | Viewport (x y width height : Int)
  | UseProgram (program : Option ProgramID)
  | Uniform1f (location : Nat) (v0 : ℚ)
  | Uniform2f (location : Nat) (v0 v1 : ℚ)
  | Uniform4f (location : Nat) (v0 v1 v2 v3 : ℚ)
  | Uniform1i (location : Nat) (v0 : Int)
  | Uniform2fv (location : Nat) (value : vec2 ℚ)
  | Uniform4fv (location : Nat) (value : vec4 ℚ)
  | BindMultiTexture (unit : Nat) (target : TexTarget) (texture : Option TextureID)
  | FramebufferTextureLayer (attachment : Nat) (texture : TextureID) (level : Nat)
      (layer : Nat)
  | DrawBuffer (attachment : Nat)
  | DrawArrays (first count : Nat)
  | Enable (cap : Capability)
  | Disable (cap : Capability)
  | BlendFuncZeroSrcColor
  | SampleMaskiAll
  | BindReadFramebuffer (fbo : Option FboID)
  | BindDrawFramebuffer (fbo : Option FboID)
  | ClearBufferfvColor (drawbuffer : Nat) (value : vec4 ℚ)
  | ClearDepth (depth : ℚ)
  | ClearDepthStencil
  | BindBufferBaseSceneUbo (buffer : Option BufferID)
  | BufferSubDataSceneUbo (viewportWidth viewportHeight : Int)
  | BindVertexBuffer (bindingindex : Nat) (buffer : Option BufferID)
  | BindElementArrayBuffer (buffer : Option BufferID)
  | EnableVertexAttribArray (index : VertexAttrib)
  | DisableVertexAttribArray (index : VertexAttrib)
  | DrawElements (count : Nat)
  | BlitFramebuffer (srcX0 srcY0 srcX1 srcY1 dstX0 dstY0 dstX1 dstY1 : Int)
  | WaitEvents
  | TwDraw
  | ProcessActions
  | ReloadPrograms
deriving DecidableEq, Repr

/-- The values `i` taken by the loop `for (int i = start; i < stop; i += step)` with a
positive constant `step`, from `i = start` on (a step of 0 yields no value). -/
def forIndices (stop step : Nat) (i : Nat) : List Nat :=
  if i < stop ∧ 0 < step then i :: forIndices stop step (i + step) else []
termination_by stop - i
decreasing_by omega

/-- The argument list of `glUniform4f` in `Sample::drawLinearDepth` (line 605). -/
def clipInfo (projection : Projection) : vec4 ℚ :=
  { x := projection.nearplane * projection.farplane
    y := projection.nearplane - projection.farplane
    z := projection.farplane
    w := 1 }

/-- The function `Sample::drawLinearDepth` (lines 599-610): its trace of GL calls. -/
def drawLinearDepth (projection : Projection) : List GLCmd :=
  [ .BindFramebuffer (some .depthlinear),
    .UseProgram (some .depth_linearize),
    .Uniform4f 0 (clipInfo projection).x (clipInfo projection).y (clipInfo projection).z
      (clipInfo projection).w,
    .BindMultiTexture 0 .GL_TEXTURE_2D (some .scene_depthstencil),
    .DrawArrays 0 3,
    .BindMultiTexture 0 .GL_TEXTURE_2D none ]

/-- Modelled from the spec: the linearize shader (`depthlinearize.frag.glsl`) is not
among the sources. From a hardware depth `d` and the uniform `(c0, c1, c2, _)` it
computes `c0 / (c1*d + c2)`, the form of
`linear = (near·far) / (far - depth·(far-near))` with the constants precomputed. -/
def reconstructCSZ (c : vec4 ℚ) (d : ℚ) : ℚ := c.x / (c.y * d + c.z)

/-- The specification's linear depth `(near·far) / (far - depth·(far-near))`. -/
def linearDepthSpec (near far depth : ℚ) : ℚ := (near * far) / (far - depth * (far - near))

/-- The hardware depth in `[0,1]` that the perspective projection with planes `near`
and `far` gives to view-space distance `z`. -/
def hardwareDepth (near far z : ℚ) : ℚ := far * (z - near) / (z * (far - near))

/-- The body of the deinterleave loop for batch start `i` (lines 676-681). -/
def deinterleaveBatch (hbaoUbo : HBAOData) (i : Nat) : List GLCmd :=
  [ GLCmd.Uniform4f 0 (((i % 4 : Nat) : ℚ) + 1 / 2) (((i / 4 : Nat) : ℚ) + 1 / 2)
      hbaoUbo.InvFullResolution.x hbaoUbo.InvFullResolution.y ]
  ++ (forIndices NUM_MRT 1 0).map
      (fun layer => GLCmd.FramebufferTextureLayer layer .hbao2_deptharray 0 (i + layer))
  ++ [ GLCmd.DrawArrays 0 3 ]

/-- The deinterleave loop (lines 675-682): batches of `NUM_MRT` layers. -/
def deinterleaveLoop (hbaoUbo : HBAOData) : List GLCmd :=
  (forIndices HBAO_RANDOM_ELEMENTS NUM_MRT 0).flatMap (deinterleaveBatch hbaoUbo)

/-- The trace of a loop whose body can fail: the bodies of the indices in order;
`none` as soon as one body fails. -/
def runLoop (body : Nat → Option (List GLCmd)) : List Nat → Option (List GLCmd)
  | [] => some []
  | i :: rest =>
    match body i with
    | none => none
    | some cmds => (runLoop body rest).map (fun more => cmds ++ more)

/-- The body of the horizon (`ssaocalc`) loop for slice `i` (lines 708-714); `none`
when `hbaoRandom[i]` is outside the table. -/
def ssaocalcSlice (hbaoRandom : RandomTable ℚ) (i : Nat) : Option (List GLCmd) :=
  (readEntry hbaoRandom i).map fun sample =>
    [ GLCmd.Uniform2f 0 (((i % 4 : Nat) : ℚ) + 1 / 2) (((i / 4 : Nat) : ℚ) + 1 / 2),
      GLCmd.Uniform4fv 1 sample,
      GLCmd.Uniform1f 2 (i : ℚ),
      GLCmd.FramebufferTextureLayer 0 .hbao2_resultarray 0 i,
      GLCmd.DrawArrays 0 3 ]

/-- The horizon (`ssaocalc`) loop (lines 707-715); `none` when a read of
`hbaoRandom` is outside the table. -/
def ssaocalcLoop (hbaoRandom : RandomTable ℚ) : Option (List GLCmd) :=
  runLoop (ssaocalcSlice hbaoRandom) (forIndices HBAO_RANDOM_ELEMENTS 1 0)

/-- The commands issued for each draw of a trace: for every `glDrawArrays`, the
commands since the previous one. Commands after the last draw are dropped. -/
def drawBlocks : List GLCmd → List (List GLCmd)
  | [] => []
  | .DrawArrays _ _ :: rest => [] :: drawBlocks rest
  | c :: rest =>
    match drawBlocks rest with
    | [] => []
    | b :: bs => (c :: b) :: bs

/-- The number of `glDrawArrays` calls of a trace. -/
def drawCount (cmds : List GLCmd) : Nat :=
  cmds.countP fun c =>
    match c with
    | .DrawArrays _ _ => true
    | _ => false

/-- The layers bound to color attachments by a list of commands, as
(attachment, texture, layer), in order. -/
def layerBindings (cmds : List GLCmd) : List (Nat × TextureID × Nat) :=
  cmds.filterMap fun c =>
    match c with
    | .FramebufferTextureLayer attachment texture _ layer => some (attachment, texture, layer)
    | _ => none

/-- One horizon dispatch: the slice index, sub-pixel offset, rotation sample and
output layer in effect at its draw. -/
structure Dispatch where
  sliceIndex : ℚ
  offset : vec2 ℚ
  rotation : vec4 ℚ
  outputTexture : TextureID
  outputLayer : Nat
deriving DecidableEq, Repr

/-- The dispatch that a draw block of the horizon loop describes: uniform 0 is the
offset, uniform 1 the rotation sample, uniform 2 the slice index, color attachment 0
the output layer. `none` if one of them is not set in the block. -/
def dispatchOfBlock (block : List GLCmd) : Option Dispatch := do
  let offset ← block.findSome? fun c =>
    match c with
    | .Uniform2f 0 v0 v1 => some ({ x := v0, y := v1 } : vec2 ℚ)
    | _ => none
  let rotation ← block.findSome? fun c =>
    match c with
    | .Uniform4fv 1 v => some v
    | _ => none
  let sliceIndex ← block.findSome? fun c =>
    match c with
    | .Uniform1f 2 v => some v
    | _ => none
  let (texture, layer) ← block.findSome? fun c =>
    match c with
    | .FramebufferTextureLayer 0 texture _ layer => some (texture, layer)
    | _ => none
  pure { sliceIndex := sliceIndex, offset := offset, rotation := rotation,
         outputTexture := texture, outputLayer := layer }

/-! ## The frame: `drawHbaoBlur`, `drawHbaoCacheAware`, `think` -/

/-- The arguments `(width, height, depth)` of the two `glTexStorage3D` calls of
`Sample::initFramebuffers` (lines 472-473, 477, 487): the size of the depth-slice
and AO-slice arrays. -/
def sliceArrayStorage (width height : Int) : Int × Int × Nat :=
  let quarterWidth := quarterRes width
  let quarterHeight := quarterRes height
  (quarterWidth, quarterHeight, HBAO_RANDOM_ELEMENTS)

/-- The function `Sample::drawHbaoBlur` (lines 612-641): its trace of GL calls. -/
def drawHbaoBlur (tweak : Tweak) (width height : Int) : List GLCmd :=
  let meters2viewspace : ℚ := 1
  [ .UseProgram (some .hbao_blur),
    .BindMultiTexture 1 .GL_TEXTURE_2D (some .scene_depthlinear),
    .Uniform1f 0 (tweak.blurSharpness / meters2viewspace),
    .DrawBuffer 1,
    .BindMultiTexture 0 .GL_TEXTURE_2D (some .hbao_result),
    .Uniform2f 1 (1 / (width : ℚ)) 0,
    .DrawArrays 0 3,
    -- final output to main fbo
    .BindFramebuffer (some .scene),
    .Disable .GL_DEPTH_TEST,
    .Enable .GL_BLEND,
    .BlendFuncZeroSrcColor,
    .UseProgram (some .hbao_blur2),
    .Uniform1f 0 (tweak.blurSharpness / meters2viewspace),
    .BindMultiTexture 0 .GL_TEXTURE_2D (some .hbao_blur),
    .Uniform2f 1 0 (1 / (height : ℚ)),
    .DrawArrays 0 3 ]

/-- The `viewnormal` section of `drawHbaoCacheAware` (lines 652-665). -/
def viewnormalPass (hbaoUbo : HBAOData) : List GLCmd :=
  [ .BindFramebuffer (some .viewnormal),
    .UseProgram (some .viewnormal),
    .Uniform4fv 0 hbaoUbo.projInfo,
    .Uniform1i 1 hbaoUbo.projOrtho,
    .Uniform2fv 2 hbaoUbo.InvFullResolution,
    .BindMultiTexture 0 .GL_TEXTURE_2D (some .scene_depthlinear),
    .DrawArrays 0 3,
    .BindMultiTexture 0 .GL_TEXTURE_2D none ]

/-- The `deinterleave` section of `drawHbaoCacheAware` (lines 667-683). -/
def deinterleavePass (hbaoUbo : HBAOData) (quarterWidth quarterHeight : Int) : List GLCmd :=
  [ .BindFramebuffer (some .hbao2_deinterleave),
    .Viewport 0 0 quarterWidth quarterHeight,
    .UseProgram (some .hbao2_deinterleave),
    .BindMultiTexture 0 .GL_TEXTURE_2D (some .scene_depthlinear) ]
  ++ deinterleaveLoop hbaoUbo

/-- The `ssaocalc` section of `drawHbaoCacheAware` (lines 685-716); `none` when a
read of `hbaoRandom` is outside the table. -/
def ssaocalcPass (hbaoUbo : HBAOData) (hbaoRandom : RandomTable ℚ)
    (quarterWidth quarterHeight : Int) : Option (List GLCmd) :=
  (ssaocalcLoop hbaoRandom).map fun loop =>
    [ GLCmd.BindFramebuffer (some .hbao2_calc),
      .Viewport 0 0 quarterWidth quarterHeight,
      .UseProgram (some .hbao2_calc_blur),
      .BindMultiTexture 0 .GL_TEXTURE_2D_ARRAY (some .hbao2_deptharray),
      .BindMultiTexture 1 .GL_TEXTURE_2D (some .scene_viewnormal),
      .Uniform1f 3 hbaoUbo.RadiusToScreen,
      .Uniform1f 4 hbaoUbo.R2,
      .Uniform1f 5 hbaoUbo.NegInvR2,
      .Uniform1f 6 hbaoUbo.NDotVBias,
      .Uniform2fv 7 hbaoUbo.InvFullResolution,
      .Uniform2fv 8 hbaoUbo.InvQuarterResolution,
      .Uniform1f 9 hbaoUbo.AOMultiplier,
      .Uniform1f 10 hbaoUbo.PowExponent,
      .Uniform4fv 11 hbaoUbo.projInfo,
      .Uniform2fv 12 hbaoUbo.projScale,
      .Uniform1i 13 hbaoUbo.projOrtho ]
    ++ loop

/-- The `reinterleave` section of `drawHbaoCacheAware` (lines 718-730). -/
def reinterleavePass (width height : Int) : List GLCmd :=
  [ .BindFramebuffer (some .hbao_calc),
    .DrawBuffer 0,
    .Viewport 0 0 width height,
    .UseProgram (some .hbao2_reinterleave_blur),
    .BindMultiTexture 0 .GL_TEXTURE_2D_ARRAY (some .hbao2_resultarray),
    .DrawArrays 0 3,
    .BindMultiTexture 0 .GL_TEXTURE_2D_ARRAY none ]

/-- The function `Sample::drawHbaoCacheAware` (lines 643-745): the new `hbaoUbo` and
the trace of GL calls; the trace is `none` when a read of `hbaoRandom` is outside the
table. -/
def drawHbaoCacheAware (tanf : ℚ → ℚ) (tweak : Tweak) (hbaoUbo : HBAOData)
    (hbaoRandom : RandomTable ℚ) (projection : Projection) (width height : Int) :
    HBAOData × Option (List GLCmd) :=
  let quarterWidth := quarterRes width
  let quarterHeight := quarterRes height
  let ubo := prepareHbaoData tanf tweak hbaoUbo projection width height
  (ubo,
    (ssaocalcPass ubo hbaoRandom quarterWidth quarterHeight).map fun ssaocalc =>
      drawLinearDepth projection
      ++ viewnormalPass ubo
      ++ deinterleavePass ubo quarterWidth quarterHeight
      ++ ssaocalc
      ++ reinterleavePass width height
      ++ drawHbaoBlur tweak width height
      ++ [ .Disable .GL_BLEND,
           .Enable .GL_DEPTH_TEST,
           .Disable .GL_SAMPLE_MASK,
           .SampleMaskiAll,
           .BindMultiTexture 0 .GL_TEXTURE_2D none,
           .BindMultiTexture 1 .GL_TEXTURE_2D none,
           .UseProgram none ])

/-- The `Scene` section of `think` (lines 770-811). Of the uniform data `sceneUbo`
only the viewport is kept; the matrices come from the camera control. -/
def scenePass (width height : Int) (sceneTriangleIndices : Nat) : List GLCmd :=
  [ .Viewport 0 0 width height,
    .BindFramebuffer (some .scene),
    .ClearBufferfvColor 0 { x := 1 / 5, y := 1 / 5, z := 1 / 5, w := 0 },
    .ClearDepth 1,
    .ClearDepthStencil,
    .Enable .GL_DEPTH_TEST,
    .UseProgram (some .draw_scene),
    .BindBufferBaseSceneUbo (some .scene_ubo),
    .BufferSubDataSceneUbo width height,
    .BindVertexBuffer 0 (some .scene_vbo),
    .BindElementArrayBuffer (some .scene_ibo),
    .EnableVertexAttribArray .VERTEX_POS,
    .EnableVertexAttribArray .VERTEX_NORMAL,
    .EnableVertexAttribArray .VERTEX_COLOR,
    .DrawElements sceneTriangleIndices,
    .DisableVertexAttribArray .VERTEX_POS,
    .DisableVertexAttribArray .VERTEX_NORMAL,
    .DisableVertexAttribArray .VERTEX_COLOR,
    .BindBufferBaseSceneUbo none,
    .BindVertexBuffer 0 none,
    .BindElementArrayBuffer none ]

/-- The `Blit` section of `think` (lines 819-827). -/
def blitPass (width height : Int) : List GLCmd :=
  [ .BindReadFramebuffer (some .scene),
    .BindDrawFramebuffer none,
    .BlitFramebuffer 0 0 width height 0 0 width height,
    .BindFramebuffer none ]

/-- The members of `Sample` that a frame reads or writes, with the state of the
program manager reduced to the answer of `areProgramsValid()`. -/
structure Sample where
  tweak : Tweak
  tweakLast : Tweak
  sceneTriangleIndices : Nat
  hbaoRandom : RandomTable ℚ
  hbaoUbo : HBAOData
  programsValid : Bool

/-- What a frame takes from the window and the shader files: whether key R was
pressed, whether the programs are valid after a reload, and the view size. -/
structure FrameInput where
  keyR : Bool
  validAfterReload : Bool
  width : Int
  height : Int

/-- The constructor `Projection()` (lines 160-166); the matrix, which it leaves
unset, is zero here and is overwritten by `update` before any use. -/
def Projection.new : Projection :=
  { nearplane := 1 / 10, farplane := 100, fov := 45, matrix := fun _ => 0 }

/-- The function `Projection::update` (lines 168-170); `perspective` is
`nv_math::perspective`. -/
def Projection.update (perspective : ℚ → ℚ → ℚ → ℚ → mat4) (p : Projection)
    (width height : Int) : Projection :=
  { p with matrix := perspective p.fov ((width : ℚ) / (height : ℚ)) p.nearplane p.farplane }

/-- The calls that `think` makes before it checks the programs (lines 750-756):
`processActions` always, `reloadPrograms` when key R is pressed. -/
def thinkPrologue (input : FrameInput) : List GLCmd :=
  GLCmd.ProcessActions :: (if input.keyR then [GLCmd.ReloadPrograms] else [])

/-- The function `Sample::think` (lines 748-833): the state after the frame and the
trace of its calls; the trace is `none` when a read of `hbaoRandom` is outside the
table. What `processActions` and `reloadPrograms` do inside is outside the source:
the first is a trace entry only, the second sets the validity of the programs to the
value the frame input gives. -/
def think (tanf : ℚ → ℚ) (perspective : ℚ → ℚ → ℚ → ℚ → mat4) (s : Sample)
    (input : FrameInput) : Sample × Option (List GLCmd) :=
  let s1 : Sample :=
    if input.keyR then { s with programsValid := input.validAfterReload } else s
  if !s1.programsValid then
    (s1, some (thinkPrologue input ++ [ .WaitEvents ]))
  else
    let width := input.width
    let height := input.height
    let projection := Projection.update perspective Projection.new width height
    let s2 : Sample := { s1 with tweakLast := s1.tweak }
    let ao := drawHbaoCacheAware tanf s2.tweak s2.hbaoUbo s2.hbaoRandom projection width height
    ({ s2 with hbaoUbo := ao.1 },
      ao.2.map fun ssao =>
        thinkPrologue input
        ++ scenePass width height s2.sceneTriangleIndices
        ++ ssao
        ++ blitPass width height
        ++ [ .TwDraw ])

/-- Whether a program belongs to an AO stage (linearize, normal, deinterleave,
horizon, reinterleave, blur, composite): every program but `draw_scene`. -/
def ProgramID.isAOStage : ProgramID → Bool
  | .draw_scene => false
  | .depth_linearize => true
  | .viewnormal => true
  | .hbao_blur => true
  | .hbao_blur2 => true
  | .hbao2_deinterleave => true
  | .hbao2_calc_blur => true
  | .hbao2_reinterleave_blur => true

/-- The AO stages that a trace starts: the AO programs it puts in use, in order. -/
def aoStages (cmds : List GLCmd) : List ProgramID :=
  cmds.filterMap fun c =>
    match c with
    | .UseProgram (some p) => if p.isAOStage then some p else none
    | _ => none

/-- The number of scene draws (`glDrawElements`) of a trace. -/
def sceneDrawCount (cmds : List GLCmd) : Nat :=
  cmds.countP fun c =>
    match c with
    | .DrawElements _ => true
    | _ => false

/-- The number of blits (`glBlitFramebuffer`) of a trace. -/
def blitCount (cmds : List GLCmd) : Nat :=
  cmds.countP fun c =>
    match c with
    | .BlitFramebuffer _ _ _ _ _ _ _ _ => true
    | _ => false

/-- A `Sample` after `begin()`: the tunables of `Tweak()`, a cube of 36 indices, a
table of unrotated samples, a zero `hbaoUbo`, and the given program validity. -/
def Sample.start (programsValid : Bool) : Sample :=
  { tweak := Tweak.default
    tweakLast := Tweak.default
    sceneTriangleIndices := 36
    hbaoRandom := fun _ => { x := 1, y := 0, z := 0, w := 0 }
    hbaoUbo := HBAOData.zero
    programsValid := programsValid }

/-! ## Lemmas on the texel mapping -/

theorem mem_sliceTexels (W H : Nat) (t : SliceTexel) :
    t ∈ sliceTexels W H ↔ IsSliceTexel W H t := by
  obtain ⟨i, qx, qy⟩ := t
  simp only [sliceTexels, IsSliceTexel, List.mem_flatMap, List.mem_map, List.mem_range,
    Prod.mk.injEq]
  constructor
  · rintro ⟨i', hi, qy', hy, qx', hx, rfl, rfl, rfl⟩
    exact ⟨hi, hx, hy⟩
  · rintro ⟨hi, hx, hy⟩
    exact ⟨i, hi, qy, hy, qx, hx, rfl, rfl, rfl⟩

theorem fullResPos_ownerTexel (x y : Nat) : fullResPos (ownerTexel x y) = (x, y) := by
  simp only [fullResPos, ownerTexel, HBAO_RANDOM_SIZE, Prod.mk.injEq]
  constructor <;> omega

theorem isSliceTexel_ownerTexel {W H x y : Nat} (hx : x < W) (hy : y < H) :
    IsSliceTexel W H (ownerTexel x y) := by
  simp only [IsSliceTexel, ownerTexel, HBAO_RANDOM_ELEMENTS, HBAO_RANDOM_SIZE, quarterDim]
  refine ⟨?_, ?_, ?_⟩ <;> omega

theorem eq_ownerTexel_of_fullResPos {t : SliceTexel} {x y : Nat}
    (ht : t.1 < HBAO_RANDOM_ELEMENTS) (h : fullResPos t = (x, y)) : t = ownerTexel x y := by
  obtain ⟨i, qx, qy⟩ := t
  simp only [fullResPos, HBAO_RANDOM_SIZE, Prod.mk.injEq, HBAO_RANDOM_ELEMENTS] at h ht
  simp only [ownerTexel, HBAO_RANDOM_SIZE, Prod.mk.injEq]
  refine ⟨?_, ?_, ?_⟩ <;> omega

theorem deinterleaveSource_of_inside {W H : Nat} {t : SliceTexel}
    (hx : (fullResPos t).1 < W) (hy : (fullResPos t).2 < H) :
    deinterleaveSource W H t = fullResPos t := by
  simp only [deinterleaveSource, clampToEdge, Prod.ext_iff]
  constructor <;> omega

/-- A fold of writes whose writes to `(x, y)` all carry `v` leaves `v` at `(x, y)`
once it is there. -/
theorem foldl_writeTexel_keep {α : Type} (W H : Nat) (S : SliceArray α) (x y : Nat) (v : α)
    (l : List SliceTexel)
    (hval : ∀ t ∈ l, fullResPos t = (x, y) → S t.1 t.2.1 t.2.2 = v)
    (buf : FullBuffer α) (hbuf : buf x y = v) :
    (l.foldl (fun b t => writeTexel W H b (fullResPos t) (S t.1 t.2.1 t.2.2)) buf) x y = v := by
  induction l generalizing buf with
  | nil => simpa using hbuf
  | cons t l ih =>
    rw [List.foldl_cons]
    apply ih (fun u hu => hval u (List.mem_cons_of_mem _ hu))
    unfold writeTexel
    split
    · next hc =>
      apply hval t (List.mem_cons_self _ _)
      exact Prod.ext hc.2.2.1.symm hc.2.2.2.symm
    · exact hbuf

/-- A fold of writes that contains a write to the in-range position `(x, y)`, and
whose writes to `(x, y)` all carry `v`, ends with `v` at `(x, y)`. -/
theorem foldl_writeTexel_hit {α : Type} (W H : Nat) (S : SliceArray α) (x y : Nat) (v : α)
    (hx : x < W) (hy : y < H) (l : List SliceTexel)
    (hval : ∀ t ∈ l, fullResPos t = (x, y) → S t.1 t.2.1 t.2.2 = v)
    (hex : ∃ t ∈ l, fullResPos t = (x, y)) (buf : FullBuffer α) :
    (l.foldl (fun b t => writeTexel W H b (fullResPos t) (S t.1 t.2.1 t.2.2)) buf) x y = v := by
  induction l generalizing buf with
  | nil => obtain ⟨t, ht, _⟩ := hex; simp at ht
  | cons t l ih =>
    rw [List.foldl_cons]
    by_cases hp : fullResPos t = (x, y)
    · apply foldl_writeTexel_keep W H S x y v l
        (fun u hu => hval u (List.mem_cons_of_mem _ hu))
      have h1 : (fullResPos t).1 = x := by rw [hp]
      have h2 : (fullResPos t).2 = y := by rw [hp]
      have hv := hval t (List.mem_cons_self _ _) hp
      simp [writeTexel, h1, h2, hx, hy, hv]
    · apply ih (fun u hu => hval u (List.mem_cons_of_mem _ hu))
      obtain ⟨u, hu, hpu⟩ := hex
      rcases List.mem_cons.mp hu with rfl | hu'
      · exact absurd hpu hp
      · exact ⟨u, hu', hpu⟩

/-! ## Theorems -/

/-- C1: deinterleaving a `W x H` buffer `D` into the 16 slices and reinterleaving
the slices gives back `D` at every texel `(x, y)` with `x < W` and `y < H`,
whatever the render target held before. -/
theorem reinterleave_deinterleave {α : Type} (W H : Nat) (D old : FullBuffer α) (x y : Nat)
    (hx : x < W) (hy : y < H) :
    reinterleave W H (deinterleave W H D) old x y = D x y := by
  unfold reinterleave
  apply foldl_writeTexel_hit W H _ x y (D x y) hx hy
  · intro t _ hp
    have h1 : (fullResPos t).1 = x := by rw [hp]
    have h2 : (fullResPos t).2 = y := by rw [hp]
    have hs : deinterleaveSource W H t = (x, y) := by
      rw [deinterleaveSource_of_inside (by omega) (by omega), hp]
    show D (deinterleaveSource W H (t.1, t.2.1, t.2.2)).1
      (deinterleaveSource W H (t.1, t.2.1, t.2.2)).2 = D x y
    rw [show ((t.1, t.2.1, t.2.2) : SliceTexel) = t from rfl, hs]
  · exact ⟨ownerTexel x y, (mem_sliceTexels W H _).mpr (isSliceTexel_ownerTexel hx hy),
      fullResPos_ownerTexel x y⟩

/-- Witness of C1 on a 5 x 3 buffer, at its last texel. -/
theorem reinterleave_deinterleave_witness :
    (4 < 5 ∧ 2 < 3) ∧
      reinterleave 5 3 (deinterleave 5 3 (fun x y => 10 * y + x)) (fun _ _ => 0) 4 2 = 24 :=
  ⟨by decide, reinterleave_deinterleave 5 3 (fun x y => 10 * y + x) (fun _ _ => 0) 4 2
    (by decide) (by decide)⟩

/-- C2, as stated, fails on a 1 x 1 buffer: the clamped reads of slice texels
`(0,0,0)` and `(1,0,0)` both hit texel `(0,0)`, so it is not read by exactly one
slice texel. -/
theorem deinterleave_reads_once_counterexample :
    (IsSliceTexel 1 1 (0, 0, 0) ∧ deinterleaveSource 1 1 (0, 0, 0) = (0, 0)) ∧
    (IsSliceTexel 1 1 (1, 0, 0) ∧ deinterleaveSource 1 1 (1, 0, 0) = (0, 0)) ∧
    ¬ ∃! t : SliceTexel, IsSliceTexel 1 1 t ∧ deinterleaveSource 1 1 t = (0, 0) := by
  have h0 : IsSliceTexel 1 1 (0, 0, 0) ∧ deinterleaveSource 1 1 (0, 0, 0) = (0, 0) := by
    decide
  have h1 : IsSliceTexel 1 1 (1, 0, 0) ∧ deinterleaveSource 1 1 (1, 0, 0) = (0, 0) := by
    decide
  refine ⟨h0, h1, ?_⟩
  rintro ⟨t, _, huniq⟩
  have e0 := huniq (0, 0, 0) h0
  have e1 := huniq (1, 0, 0) h1
  rw [← e1] at e0
  exact absurd e0 (by decide)

/-- A texel of the last column of a buffer whose width is not a multiple of 4 is read
a second time, by the slice texel one offset to the right of its owner, through the
clamp. -/
theorem second_reader_right {W H x y : Nat} (hx : x + 1 = W) (h4 : ¬ 4 ∣ W) (hy : y < H) :
    IsSliceTexel W H ((y % 4) * 4 + (x % 4 + 1), x / 4, y / 4) ∧
    deinterleaveSource W H ((y % 4) * 4 + (x % 4 + 1), x / 4, y / 4) = (x, y) ∧
    ((y % 4) * 4 + (x % 4 + 1), x / 4, y / 4) ≠ ownerTexel x y := by
  refine ⟨?_, ?_, ?_⟩
  · simp only [IsSliceTexel, HBAO_RANDOM_ELEMENTS, HBAO_RANDOM_SIZE, quarterDim]
    refine ⟨?_, ?_, ?_⟩ <;> omega
  · simp only [deinterleaveSource, clampToEdge, fullResPos, HBAO_RANDOM_SIZE, Prod.mk.injEq]
    constructor <;> omega
  · simp only [ownerTexel, HBAO_RANDOM_SIZE, ne_eq, Prod.mk.injEq, not_and]
    omega

/-- A texel of the last row of a buffer whose height is not a multiple of 4 is read a
second time, by the slice texel one offset below its owner, through the clamp. -/
theorem second_reader_below {W H x y : Nat} (hx : x < W) (hy : y + 1 = H) (h4 : ¬ 4 ∣ H) :
    IsSliceTexel W H ((y % 4 + 1) * 4 + x % 4, x / 4, y / 4) ∧
    deinterleaveSource W H ((y % 4 + 1) * 4 + x % 4, x / 4, y / 4) = (x, y) ∧
    ((y % 4 + 1) * 4 + x % 4, x / 4, y / 4) ≠ ownerTexel x y := by
  refine ⟨?_, ?_, ?_⟩
  · simp only [IsSliceTexel, HBAO_RANDOM_ELEMENTS, HBAO_RANDOM_SIZE, quarterDim]
    refine ⟨?_, ?_, ?_⟩ <;> omega
  · simp only [deinterleaveSource, clampToEdge, fullResPos, HBAO_RANDOM_SIZE, Prod.mk.injEq]
    constructor <;> omega
  · simp only [ownerTexel, HBAO_RANDOM_SIZE, ne_eq, Prod.mk.injEq, not_and]
    omega

/-- The owner of an in-range texel reads it. -/
theorem deinterleaveSource_ownerTexel {W H x y : Nat} (hx : x < W) (hy : y < H) :
    deinterleaveSource W H (ownerTexel x y) = (x, y) := by
  have hpos : fullResPos (ownerTexel x y) = (x, y) := fullResPos_ownerTexel x y
  rw [deinterleaveSource_of_inside (by rw [hpos]; exact hx) (by rw [hpos]; exact hy), hpos]

/-- C2, amended: for every `W x H` buffer and texel `(x, y)` inside it, exactly one
slice texel has `(x, y)` as its own position `(qx*4 + i%4, qy*4 + i/4)`, and that
slice texel reads `(x, y)`. The texel is read by exactly one slice texel if and only
if it is not in the last column of a width that is not a multiple of 4 and not in
the last row of a height that is not a multiple of 4. Every slice texel whose own
position falls outside the buffer reads, through the clamp, a texel of the last
column or last row that another slice texel reads too. -/
theorem deinterleave_reads_once (W H x y : Nat) (hx : x < W) (hy : y < H) :
    (∃! t : SliceTexel, IsSliceTexel W H t ∧ fullResPos t = (x, y)) ∧
    (IsSliceTexel W H (ownerTexel x y) ∧ deinterleaveSource W H (ownerTexel x y) = (x, y)) ∧
    ((∃! t : SliceTexel, IsSliceTexel W H t ∧ deinterleaveSource W H t = (x, y)) ↔
      (x + 1 < W ∨ 4 ∣ W) ∧ (y + 1 < H ∨ 4 ∣ H)) ∧
    (∀ t : SliceTexel, IsSliceTexel W H t →
      (W ≤ (fullResPos t).1 ∨ H ≤ (fullResPos t).2) →
      ((deinterleaveSource W H t).1 < W ∧ (deinterleaveSource W H t).2 < H) ∧
      ((deinterleaveSource W H t).1 + 1 = W ∨ (deinterleaveSource W H t).2 + 1 = H) ∧
      ∃ u : SliceTexel, u ≠ t ∧ IsSliceTexel W H u ∧
        deinterleaveSource W H u = deinterleaveSource W H t) := by
  have hown : IsSliceTexel W H (ownerTexel x y) := isSliceTexel_ownerTexel hx hy
  have hpos : fullResPos (ownerTexel x y) = (x, y) := fullResPos_ownerTexel x y
  have hsrc : deinterleaveSource W H (ownerTexel x y) = (x, y) :=
    deinterleaveSource_ownerTexel hx hy
  refine ⟨⟨ownerTexel x y, ⟨hown, hpos⟩, ?_⟩, ⟨hown, hsrc⟩, ⟨?_, ?_⟩, ?_⟩
  · rintro t ⟨ht, hp⟩
    exact eq_ownerTexel_of_fullResPos ht.1 hp
  · -- a single reader forces the texel off the clamped edges
    rintro ⟨t0, _, huniq⟩
    have e0 := huniq (ownerTexel x y) ⟨hown, hsrc⟩
    constructor
    · by_contra hc
      have hxW : x + 1 = W := by omega
      have h4 : ¬ 4 ∣ W := fun h => hc (Or.inr h)
      obtain ⟨h1, h2, h3⟩ := second_reader_right hxW h4 hy
      have e1 := huniq _ ⟨h1, h2⟩
      exact h3 (e1.trans e0.symm)
    · by_contra hc
      have hyH : y + 1 = H := by omega
      have h4 : ¬ 4 ∣ H := fun h => hc (Or.inr h)
      obtain ⟨h1, h2, h3⟩ := second_reader_below hx hyH h4
      have e1 := huniq _ ⟨h1, h2⟩
      exact h3 (e1.trans e0.symm)
  · -- off the clamped edges every reader is the owner
    rintro ⟨hcx, hcy⟩
    refine ⟨ownerTexel x y, ⟨hown, hsrc⟩, ?_⟩
    rintro t ⟨ht, hp⟩
    apply eq_ownerTexel_of_fullResPos ht.1
    obtain ⟨i, qx, qy⟩ := t
    simp only [IsSliceTexel, quarterDim, HBAO_RANDOM_ELEMENTS, HBAO_RANDOM_SIZE] at ht
    simp only [deinterleaveSource, clampToEdge, fullResPos, HBAO_RANDOM_SIZE,
      Prod.mk.injEq] at hp ⊢
    constructor <;> omega
  · intro t ht hout
    have hs1 : (deinterleaveSource W H t).1 < W := by
      simp only [deinterleaveSource, clampToEdge]; omega
    have hs2 : (deinterleaveSource W H t).2 < H := by
      simp only [deinterleaveSource, clampToEdge]; omega
    refine ⟨⟨hs1, hs2⟩, ?_, ownerTexel (deinterleaveSource W H t).1 (deinterleaveSource W H t).2,
      ?_, isSliceTexel_ownerTexel hs1 hs2, deinterleaveSource_ownerTexel hs1 hs2⟩
    · simp only [deinterleaveSource, clampToEdge]; omega
    · intro heq
      have hp := fullResPos_ownerTexel (deinterleaveSource W H t).1 (deinterleaveSource W H t).2
      rw [heq] at hp
      have h1 : (fullResPos t).1 < W := by rw [hp]; exact hs1
      have h2 : (fullResPos t).2 < H := by rw [hp]; exact hs2
      omega

/-- Witness of the amended C2 on a 6 x 4 buffer, at texel `(5, 3)` of the last
column: the width is not a multiple of 4, so the texel is not read exactly once. -/
theorem deinterleave_reads_once_witness :
    (5 < 6 ∧ 3 < 4) ∧
    ((∃! t : SliceTexel, IsSliceTexel 6 4 t ∧ deinterleaveSource 6 4 t = (5, 3)) ↔
      (5 + 1 < 6 ∨ 4 ∣ 6) ∧ (3 + 1 < 4 ∨ 4 ∣ 4)) :=
  ⟨by decide, (deinterleave_reads_once 6 4 5 3 (by decide) (by decide)).2.2.1⟩

/-! ## The AO parameters (`prepareHbaoData`) -/

/-- C3: for valid tunables (intensity >= 0, radius >= 0, bias in [0, 0.1],
blurSharpness >= 0) the parameters written by `prepareHbaoData` satisfy
`R2 = radius^2 >= 0`, `0 <= NDotVBias <= 1`, `AOMultiplier = 1/(1 - NDotVBias)` and
`AOMultiplier > 0`. -/
theorem prepareHbaoData_invariant (tanf : ℚ → ℚ) (tweak : Tweak) (hbaoUbo : HBAOData)
    (projection : Projection) (width height : Int)
    (_hint : 0 ≤ tweak.intensity) (_hrad : 0 ≤ tweak.radius)
    (hbias : 0 ≤ tweak.bias ∧ tweak.bias ≤ 1 / 10) (_hblur : 0 ≤ tweak.blurSharpness) :
    (prepareHbaoData tanf tweak hbaoUbo projection width height).R2 = tweak.radius ^ 2 ∧
    0 ≤ (prepareHbaoData tanf tweak hbaoUbo projection width height).R2 ∧
    0 ≤ (prepareHbaoData tanf tweak hbaoUbo projection width height).NDotVBias ∧
    (prepareHbaoData tanf tweak hbaoUbo projection width height).NDotVBias ≤ 1 ∧
    (prepareHbaoData tanf tweak hbaoUbo projection width height).AOMultiplier =
      1 / (1 - (prepareHbaoData tanf tweak hbaoUbo projection width height).NDotVBias) ∧
    0 < (prepareHbaoData tanf tweak hbaoUbo projection width height).AOMultiplier := by
  obtain ⟨hb0, hb1⟩ := hbias
  have hmax : max 0 tweak.bias = tweak.bias := max_eq_right hb0
  have hmin : min tweak.bias 1 = tweak.bias := min_eq_left (by linarith)
  simp only [prepareHbaoData, mul_one, hmax, hmin]
  refine ⟨by ring, mul_self_nonneg _, hb0, by linarith, trivial, ?_⟩
  apply div_pos one_pos
  linarith

/-- Witness of C3 at the tunables of the constructor `Tweak()`. -/
theorem prepareHbaoData_invariant_witness :
    (0 ≤ Tweak.default.intensity ∧ 0 ≤ Tweak.default.radius ∧
      (0 ≤ Tweak.default.bias ∧ Tweak.default.bias ≤ 1 / 10) ∧
      0 ≤ Tweak.default.blurSharpness) ∧
    (prepareHbaoData (fun _ => 1) Tweak.default HBAOData.zero Projection.symmetric
        1280 720).R2 = Tweak.default.radius ^ 2 ∧
    0 ≤ (prepareHbaoData (fun _ => 1) Tweak.default HBAOData.zero Projection.symmetric
        1280 720).R2 ∧
    0 ≤ (prepareHbaoData (fun _ => 1) Tweak.default HBAOData.zero Projection.symmetric
        1280 720).NDotVBias ∧
    (prepareHbaoData (fun _ => 1) Tweak.default HBAOData.zero Projection.symmetric
        1280 720).NDotVBias ≤ 1 ∧
    (prepareHbaoData (fun _ => 1) Tweak.default HBAOData.zero Projection.symmetric
        1280 720).AOMultiplier =
      1 / (1 - (prepareHbaoData (fun _ => 1) Tweak.default HBAOData.zero
        Projection.symmetric 1280 720).NDotVBias) ∧
    0 < (prepareHbaoData (fun _ => 1) Tweak.default HBAOData.zero Projection.symmetric
        1280 720).AOMultiplier :=
  have h : 0 ≤ Tweak.default.intensity ∧ 0 ≤ Tweak.default.radius ∧
      (0 ≤ Tweak.default.bias ∧ Tweak.default.bias ≤ 1 / 10) ∧
      0 ≤ Tweak.default.blurSharpness := by
    simp only [Tweak.default]; norm_num
  ⟨h, prepareHbaoData_invariant (fun _ => 1) Tweak.default HBAOData.zero
    Projection.symmetric 1280 720 h.1 h.2.1 h.2.2.1 h.2.2.2⟩

/-- C4, as stated, fails: with radius -1 (other tunables as in `Tweak()`, render
target 1280 x 720, tangent value 1) `prepareHbaoData` gives `R2 = 1` and
`RadiusToScreen = -180`, while the clamped tunables (radius 0) give `0` and `0`; and
with bias 1/2 it gives `NDotVBias = 1/2`, while the clamped tunables (bias 1/10) give
`1/10`. -/
theorem prepareHbaoData_clamp_counterexample :
    ((prepareHbaoData (fun _ => 1) { Tweak.default with radius := -1 } HBAOData.zero
        Projection.symmetric 1280 720).R2 = 1 ∧
      (prepareHbaoData (fun _ => 1) (clampTunables { Tweak.default with radius := -1 })
        HBAOData.zero Projection.symmetric 1280 720).R2 = 0) ∧
    ((prepareHbaoData (fun _ => 1) { Tweak.default with radius := -1 } HBAOData.zero
        Projection.symmetric 1280 720).RadiusToScreen = -180 ∧
      (prepareHbaoData (fun _ => 1) (clampTunables { Tweak.default with radius := -1 })
        HBAOData.zero Projection.symmetric 1280 720).RadiusToScreen = 0) ∧
    ((prepareHbaoData (fun _ => 1) { Tweak.default with bias := 1 / 2 } HBAOData.zero
        Projection.symmetric 1280 720).NDotVBias = 1 / 2 ∧
      (prepareHbaoData (fun _ => 1) (clampTunables { Tweak.default with bias := 1 / 2 })
        HBAOData.zero Projection.symmetric 1280 720).NDotVBias = 1 / 10) := by
  simp only [prepareHbaoData, clampTunables, Tweak.default, Projection.symmetric]
  norm_num

/-- C4, amended: `prepareHbaoData` is total, and for every tunables record it derives
`PowExponent = max(intensity, 0)`, `NDotVBias = min(max(0, bias), 1)`,
`AOMultiplier = 1/(1 - NDotVBias)`, `R2 = radius^2`, `NegInvR2 = -1/R2` and
`RadiusToScreen = radius * 0.5 * height / (tanf(fov*0.5)*2)`: the parameters are those
of the tunables with intensity projected onto `[0, ∞)` and bias projected onto
`[0, 1]`, and the radius enters unclamped, so that negating the radius keeps `R2` and
negates `RadiusToScreen`. -/
theorem prepareHbaoData_clamps (tanf : ℚ → ℚ) (tweak : Tweak)
    (hbaoUbo : HBAOData) (projection : Projection) (width height : Int) :
    (prepareHbaoData tanf tweak hbaoUbo projection width height).PowExponent =
      max tweak.intensity 0 ∧
    (prepareHbaoData tanf tweak hbaoUbo projection width height).NDotVBias =
      min (max 0 tweak.bias) 1 ∧
    (prepareHbaoData tanf tweak hbaoUbo projection width height).AOMultiplier =
      1 / (1 - min (max 0 tweak.bias) 1) ∧
    (prepareHbaoData tanf tweak hbaoUbo projection width height).R2 = tweak.radius ^ 2 ∧
    (prepareHbaoData tanf tweak hbaoUbo projection width height).NegInvR2 =
      -1 / tweak.radius ^ 2 ∧
    (prepareHbaoData tanf tweak hbaoUbo projection width height).RadiusToScreen =
      tweak.radius * (1 / 2) * ((height : ℚ) / (tanf (projection.fov * (1 / 2)) * 2)) ∧
    prepareHbaoData tanf tweak hbaoUbo projection width height =
      prepareHbaoData tanf (clampTunablesCode tweak) hbaoUbo projection width height ∧
    (prepareHbaoData tanf { tweak with radius := -tweak.radius } hbaoUbo projection
        width height).R2 =
      (prepareHbaoData tanf tweak hbaoUbo projection width height).R2 ∧
    (prepareHbaoData tanf { tweak with radius := -tweak.radius } hbaoUbo projection
        width height).RadiusToScreen =
      -(prepareHbaoData tanf tweak hbaoUbo projection width height).RadiusToScreen := by
  have h1 : max (max tweak.intensity 0) 0 = max tweak.intensity 0 :=
    max_eq_left (le_max_right _ _)
  have h2 : max 0 (min (max 0 tweak.bias) 1) = min (max 0 tweak.bias) 1 :=
    max_eq_right (le_min (le_max_left _ _) zero_le_one)
  have h3 : min (min (max 0 tweak.bias) 1) 1 = min (max 0 tweak.bias) 1 :=
    min_eq_left (min_le_right _ _)
  refine ⟨rfl, rfl, rfl, ?_, ?_, ?_, ?_, ?_, ?_⟩
  · simp only [prepareHbaoData, mul_one]; ring
  · simp only [prepareHbaoData, mul_one]; rw [pow_two]
  · simp only [prepareHbaoData, mul_one, ne_eq, not_true_eq_false, if_false]
  · simp only [prepareHbaoData, clampTunablesCode, h1, h2, h3]
  · simp only [prepareHbaoData, mul_one]; ring
  · simp only [prepareHbaoData, mul_one, ne_eq, not_true_eq_false, if_false]; ring

/-- C6: `prepareHbaoData` never assigns the field `projScale` of `hbaoUbo`: the
field keeps its old value, and the computed `height / (tanf(fov*0.5)*2)` only
enters `RadiusToScreen`. -/
theorem prepareHbaoData_projScale_unassigned (tanf : ℚ → ℚ) (tweak : Tweak)
    (hbaoUbo : HBAOData) (projection : Projection) (width height : Int) :
    (prepareHbaoData tanf tweak hbaoUbo projection width height).projScale =
      hbaoUbo.projScale ∧
    (prepareHbaoData tanf tweak hbaoUbo projection width height).RadiusToScreen =
      tweak.radius * (1 / 2) * ((height : ℚ) / (tanf (projection.fov * (1 / 2)) * 2)) := by
  simp [prepareHbaoData]

/-! ## Depth linearization (`drawLinearDepth`) -/

/-- C7: for `0 < near < far`, `drawLinearDepth` uploads
`(near*far, near - far, far, 1)`; with these constants `c0 / (c1*d + c2)` has a
non-zero denominator and equals `(near*far) / (far - d*(far - near))` for every
`d` in `[0,1]`; and for every `z` in `[near, far]` the hardware depth
`far*(z - near) / (z*(far - near))` lies in `[0,1]` and is mapped back to `z`
exactly; depth 0 gives `near` and depth 1 gives `far`. -/
theorem drawLinearDepth_inverts_projection (projection : Projection)
    (hnear : 0 < projection.nearplane) (hfar : projection.nearplane < projection.farplane) :
    GLCmd.Uniform4f 0 (projection.nearplane * projection.farplane)
        (projection.nearplane - projection.farplane) projection.farplane 1
      ∈ drawLinearDepth projection ∧
    (∀ d : ℚ, 0 ≤ d → d ≤ 1 →
      (clipInfo projection).y * d + (clipInfo projection).z ≠ 0 ∧
      projection.farplane - d * (projection.farplane - projection.nearplane) ≠ 0 ∧
      reconstructCSZ (clipInfo projection) d =
        linearDepthSpec projection.nearplane projection.farplane d) ∧
    (∀ z : ℚ, projection.nearplane ≤ z → z ≤ projection.farplane →
      0 ≤ hardwareDepth projection.nearplane projection.farplane z ∧
      hardwareDepth projection.nearplane projection.farplane z ≤ 1 ∧
      reconstructCSZ (clipInfo projection)
        (hardwareDepth projection.nearplane projection.farplane z) = z) ∧
    reconstructCSZ (clipInfo projection) 0 = projection.nearplane ∧
    reconstructCSZ (clipInfo projection) 1 = projection.farplane := by
  obtain ⟨near, far, fov, matrix⟩ := projection
  simp only at hnear hfar
  have hf0 : 0 < far := lt_trans hnear hfar
  have hfn : 0 < far - near := by linarith
  refine ⟨by simp [drawLinearDepth, clipInfo], ?_, ?_, ?_, ?_⟩
  · intro d hd0 hd1
    have hden : 0 < far - d * (far - near) := by nlinarith
    refine ⟨?_, ne_of_gt hden, ?_⟩
    · simp only [clipInfo]
      have : (near - far) * d + far = far - d * (far - near) := by ring
      rw [this]
      exact ne_of_gt hden
    · simp only [reconstructCSZ, clipInfo, linearDepthSpec]
      congr 1
      ring
  · intro z hz0 hz1
    have hz : 0 < z := lt_of_lt_of_le hnear hz0
    have hzfn : 0 < z * (far - near) := mul_pos hz hfn
    refine ⟨?_, ?_, ?_⟩
    · simp only [hardwareDepth]
      apply div_nonneg _ (le_of_lt hzfn)
      apply mul_nonneg (le_of_lt hf0)
      linarith
    · simp only [hardwareDepth]
      rw [div_le_one hzfn]
      nlinarith
    · simp only [reconstructCSZ, clipInfo, hardwareDepth]
      have hz0 : z ≠ 0 := ne_of_gt hz
      have hfn0 : far - near ≠ 0 := ne_of_gt hfn
      have hden : (near - far) * (far * (z - near) / (z * (far - near))) + far
          = near * far / z := by
        field_simp
        ring
      rw [hden]
      field_simp
  · simp only [reconstructCSZ, clipInfo]
    field_simp
  · simp only [reconstructCSZ, clipInfo]
    have hn0 : near ≠ 0 := ne_of_gt hnear
    have : (near - far) * 1 + far = near := by ring
    rw [this]
    field_simp

/-- Witness of C7 at the planes of the constructor `Projection()`: near 0.1, far 100. -/
theorem drawLinearDepth_inverts_projection_witness :
    (0 < Projection.symmetric.nearplane ∧
      Projection.symmetric.nearplane < Projection.symmetric.farplane) ∧
    reconstructCSZ (clipInfo Projection.symmetric) 0 = Projection.symmetric.nearplane ∧
    reconstructCSZ (clipInfo Projection.symmetric) 1 = Projection.symmetric.farplane :=
  have h : 0 < Projection.symmetric.nearplane ∧
      Projection.symmetric.nearplane < Projection.symmetric.farplane := by
    simp only [Projection.symmetric]; norm_num
  ⟨h, (drawLinearDepth_inverts_projection Projection.symmetric h.1 h.2).2.2.2⟩

/-! ## The rotation table (`initMisc`) -/

/-- The state of the loop of `initMisc` after its first `k` iterations: `2k` draws
have been made and entries `0 .. k-1` hold their rotation samples. -/
theorem initMisc_foldl {F σ : Type} [Field F] (nv_pi : F) (cosf sinf : F → F)
    (randExc : σ → F × σ) (s : σ) (old : RandomTable F) (k : Nat) :
    (List.range k).foldl (initMiscStep nv_pi cosf sinf randExc) (s, old) =
      (stateAfter randExc s (2 * k),
        fun j => if j.val < k then
          rotationSample nv_pi cosf sinf (nthDraw randExc s (2 * j.val))
            (nthDraw randExc s (2 * j.val + 1))
        else old j) := by
  induction k with
  | zero =>
    simp only [List.range_zero, List.foldl_nil, Nat.mul_zero, stateAfter, Nat.not_lt_zero,
      if_false]
  | succ k ih =>
    rw [List.range_succ, List.foldl_append, ih]
    simp only [List.foldl_cons, List.foldl_nil, initMiscStep]
    refine Prod.ext ?_ ?_
    · show (randExc (randExc (stateAfter randExc s (2 * k))).2).2 =
        stateAfter randExc s (2 * (k + 1))
      rw [show 2 * (k + 1) = 2 * k + 1 + 1 by ring]
      rfl
    · funext j
      simp only [setEntry]
      by_cases hjk : j.val = k
      · have hlt : j.val < k + 1 := by omega
        rw [if_pos hjk, if_pos hlt, hjk]
        rfl
      · rw [if_neg hjk]
        by_cases hlt : j.val < k
        · rw [if_pos hlt, if_pos (by omega)]
        · rw [if_neg hlt, if_neg (by omega)]

/-- Every entry of the table written by `initMisc`, over any scalar field. -/
theorem initMisc_entry {F σ : Type} [Field F] (nv_pi : F) (cosf sinf : F → F)
    (seed : Nat → σ) (randExc : σ → F × σ) (old : RandomTable F)
    (i : Fin HBAO_RANDOM_ELEMENTS) :
    initMisc nv_pi cosf sinf seed randExc old i =
      rotationSample nv_pi cosf sinf (nthDraw randExc (seed 0) (2 * i.val))
        (nthDraw randExc (seed 0) (2 * i.val + 1)) := by
  unfold initMisc
  rw [initMisc_foldl]
  simp only [i.isLt, if_true]

/-- C8: `initMisc` seeds the generator with 0 and, whatever the table held before,
stores at every index `i < 16` the entry `(cos a, sin a, r2, 0)` with
`a = 2*pi*r1/8`, where `r1` and `r2` are draws `2i` and `2i+1` of the generator
seeded with 0. For a generator whose draws lie in `[0,1)`, `a` lies in
`[0, 2*pi/8)`, `cos(a)^2 + sin(a)^2 = 1` and the jitter lies in `[0,1)`. Scalars are
real numbers. -/
theorem initMisc_table {σ : Type} (seed : Nat → σ) (randExc : σ → ℝ × σ)
    (hrange : ∀ s, 0 ≤ (randExc s).1 ∧ (randExc s).1 < 1)
    (old : RandomTable ℝ) (i : Fin HBAO_RANDOM_ELEMENTS) :
    initMisc Real.pi Real.cos Real.sin seed randExc old i =
      { x := Real.cos (2 * Real.pi * nthDraw randExc (seed 0) (2 * i.val) / 8)
        y := Real.sin (2 * Real.pi * nthDraw randExc (seed 0) (2 * i.val) / 8)
        z := nthDraw randExc (seed 0) (2 * i.val + 1)
        w := 0 } ∧
    (0 ≤ 2 * Real.pi * nthDraw randExc (seed 0) (2 * i.val) / 8 ∧
      2 * Real.pi * nthDraw randExc (seed 0) (2 * i.val) / 8 < 2 * Real.pi / 8) ∧
    (initMisc Real.pi Real.cos Real.sin seed randExc old i).x ^ 2 +
      (initMisc Real.pi Real.cos Real.sin seed randExc old i).y ^ 2 = 1 ∧
    (0 ≤ (initMisc Real.pi Real.cos Real.sin seed randExc old i).z ∧
      (initMisc Real.pi Real.cos Real.sin seed randExc old i).z < 1) ∧
    (initMisc Real.pi Real.cos Real.sin seed randExc old i).w = 0 := by
  have hr1 := hrange (stateAfter randExc (seed 0) (2 * i.val))
  have hr2 := hrange (stateAfter randExc (seed 0) (2 * i.val + 1))
  have hpi := Real.pi_pos
  rw [initMisc_entry]
  simp only [rotationSample]
  refine ⟨trivial, ⟨?_, ?_⟩, Real.cos_sq_add_sin_sq _, hr2, trivial⟩
  · have : 0 ≤ nthDraw randExc (seed 0) (2 * i.val) := hr1.1
    positivity
  · have : nthDraw randExc (seed 0) (2 * i.val) < 1 := hr1.2
    have h2 : 2 * Real.pi * nthDraw randExc (seed 0) (2 * i.val) < 2 * Real.pi * 1 :=
      mul_lt_mul_of_pos_left this (by positivity)
    linarith

/-- Witness of C8: a generator on counter states whose `n`-th draw is `(n % 4) / 4`;
entry 3 of the table has jitter `3/4` (draw 7). -/
theorem initMisc_table_witness :
    (∀ s : Nat, 0 ≤ (((s % 4 : Nat) : ℝ) / 4, s + 1).1 ∧ (((s % 4 : Nat) : ℝ) / 4, s + 1).1 < 1) ∧
    (initMisc Real.pi Real.cos Real.sin (fun n : Nat => n)
      (fun s : Nat => (((s % 4 : Nat) : ℝ) / 4, s + 1)) (fun _ => ⟨0, 0, 0, 0⟩) ⟨3, by decide⟩).w = 0 :=
  have h : ∀ s : Nat,
      0 ≤ (((s % 4 : Nat) : ℝ) / 4, s + 1).1 ∧ (((s % 4 : Nat) : ℝ) / 4, s + 1).1 < 1 := by
    intro s
    have hlt : ((s % 4 : Nat) : ℝ) < 4 := by
      exact_mod_cast Nat.mod_lt s (by norm_num)
    constructor
    · positivity
    · show ((s % 4 : Nat) : ℝ) / 4 < 1
      rw [div_lt_one (by norm_num)]
      exact hlt
  ⟨h, (initMisc_table (fun n : Nat => n) (fun s : Nat => (((s % 4 : Nat) : ℝ) / 4, s + 1)) h
    (fun _ => ⟨0, 0, 0, 0⟩) ⟨3, by decide⟩).2.2.2.2⟩

/-! ## The deinterleave and horizon loops (`drawHbaoCacheAware`) -/

theorem forIndices_batches : forIndices HBAO_RANDOM_ELEMENTS NUM_MRT 0 = [0, 8] := by
  simp [forIndices, HBAO_RANDOM_ELEMENTS, HBAO_RANDOM_SIZE, NUM_MRT]

theorem forIndices_targets : forIndices NUM_MRT 1 0 = [0, 1, 2, 3, 4, 5, 6, 7] := by
  simp [forIndices, NUM_MRT]

theorem forIndices_slices :
    forIndices HBAO_RANDOM_ELEMENTS 1 0 =
      [0, 1, 2, 3, 4, 5, 6, 7, 8, 9, 10, 11, 12, 13, 14, 15] := by
  simp [forIndices, HBAO_RANDOM_ELEMENTS, HBAO_RANDOM_SIZE]

/-- The layers bound by the deinterleave loop, batch by batch. -/
theorem layerBindings_deinterleaveLoop (hbaoUbo : HBAOData) :
    (drawBlocks (deinterleaveLoop hbaoUbo)).map layerBindings =
      [ [(0, .hbao2_deptharray, 0), (1, .hbao2_deptharray, 1), (2, .hbao2_deptharray, 2),
         (3, .hbao2_deptharray, 3), (4, .hbao2_deptharray, 4), (5, .hbao2_deptharray, 5),
         (6, .hbao2_deptharray, 6), (7, .hbao2_deptharray, 7)],
        [(0, .hbao2_deptharray, 8), (1, .hbao2_deptharray, 9), (2, .hbao2_deptharray, 10),
         (3, .hbao2_deptharray, 11), (4, .hbao2_deptharray, 12), (5, .hbao2_deptharray, 13),
         (6, .hbao2_deptharray, 14), (7, .hbao2_deptharray, 15)] ] := by
  simp [deinterleaveLoop, deinterleaveBatch, forIndices_batches, forIndices_targets,
    drawBlocks, layerBindings]

/-- C9: the deinterleave loop issues exactly `16/8 = 2` draws; the draw of batch
`b` has output target `l` in `[0,8)` bound to layer `8*b + l` of the depth-slice
array; over both batches every layer index in `[0,16)` is bound exactly once and no
layer index outside `[0,16)` is bound. -/
theorem deinterleaveLoop_binds_each_layer_once (hbaoUbo : HBAOData) :
    drawCount (deinterleaveLoop hbaoUbo) = HBAO_RANDOM_ELEMENTS / NUM_MRT ∧
    drawCount (deinterleaveLoop hbaoUbo) = 2 ∧
    (drawBlocks (deinterleaveLoop hbaoUbo)).map layerBindings =
      (List.range 2).map (fun b =>
        (List.range NUM_MRT).map (fun l => (l, TextureID.hbao2_deptharray, NUM_MRT * b + l))) ∧
    (∀ k, k < HBAO_RANDOM_ELEMENTS →
      ((layerBindings (deinterleaveLoop hbaoUbo)).map (fun b => b.2.2)).count k = 1) ∧
    (∀ b ∈ layerBindings (deinterleaveLoop hbaoUbo),
      b.1 < NUM_MRT ∧ b.2.1 = TextureID.hbao2_deptharray ∧ b.2.2 < HBAO_RANDOM_ELEMENTS) := by
  have hb := layerBindings_deinterleaveLoop hbaoUbo
  have hl : layerBindings (deinterleaveLoop hbaoUbo) =
      [(0, .hbao2_deptharray, 0), (1, .hbao2_deptharray, 1), (2, .hbao2_deptharray, 2),
       (3, .hbao2_deptharray, 3), (4, .hbao2_deptharray, 4), (5, .hbao2_deptharray, 5),
       (6, .hbao2_deptharray, 6), (7, .hbao2_deptharray, 7),
       (0, .hbao2_deptharray, 8), (1, .hbao2_deptharray, 9), (2, .hbao2_deptharray, 10),
       (3, .hbao2_deptharray, 11), (4, .hbao2_deptharray, 12), (5, .hbao2_deptharray, 13),
       (6, .hbao2_deptharray, 14), (7, .hbao2_deptharray, 15)] := by
    simp [deinterleaveLoop, deinterleaveBatch, forIndices_batches, forIndices_targets,
      layerBindings]
  have hd : drawCount (deinterleaveLoop hbaoUbo) = 2 := by
    simp [deinterleaveLoop, deinterleaveBatch, forIndices_batches, forIndices_targets,
      drawCount]
  refine ⟨?_, hd, ?_, ?_, ?_⟩
  · rw [hd]; decide
  · rw [hb]; decide
  · rw [hl]; decide
  · rw [hl]; decide

/-- A loop whose bodies all succeed yields the concatenation of their traces. -/
theorem runLoop_eq_flatMap (body : Nat → Option (List GLCmd)) (l : List Nat)
    (h : ∀ i ∈ l, (body i).isSome) :
    runLoop body l = some (l.flatMap fun i => (body i).getD []) := by
  induction l with
  | nil => rfl
  | cons i rest ih =>
    have hi := h i (List.mem_cons_self _ _)
    obtain ⟨cmds, hc⟩ := Option.isSome_iff_exists.mp hi
    have hrest := ih (fun j hj => h j (List.mem_cons_of_mem _ hj))
    simp only [runLoop, hc, hrest, Option.map_some', List.flatMap_cons, Option.getD_some]

/-- The trace of the horizon loop: the 16 slice bodies in order. -/
theorem ssaocalcLoop_trace (hbaoRandom : RandomTable ℚ) :
    ssaocalcLoop hbaoRandom =
      some ((forIndices HBAO_RANDOM_ELEMENTS 1 0).flatMap
        fun i => (ssaocalcSlice hbaoRandom i).getD []) := by
  unfold ssaocalcLoop
  apply runLoop_eq_flatMap
  rw [forIndices_slices]
  intro i hi
  have hlt : i < HBAO_RANDOM_ELEMENTS := by
    simp only [List.mem_cons, List.mem_singleton, List.not_mem_nil, or_false] at hi
    simp only [HBAO_RANDOM_ELEMENTS, HBAO_RANDOM_SIZE]
    omega
  simp [ssaocalcSlice, readEntry, hlt]

/-- C10: with any 16-entry table, the horizon loop runs without an out-of-bounds
read and issues exactly 16 draws; draw `k` is described by slice index `k`, offset
`(k % 4 + 0.5, k / 4 + 0.5)`, rotation sample `hbaoRandom[k]` and output layer `k`
of the AO-slice array; the output layers bound are `0, 1, .., 15` in this order, so
every output layer belongs to exactly one draw. -/
theorem ssaocalcLoop_one_dispatch_per_slice (hbaoRandom : RandomTable ℚ) :
    ∃ trace, ssaocalcLoop hbaoRandom = some trace ∧
      drawCount trace = HBAO_RANDOM_ELEMENTS ∧
      (drawBlocks trace).length = 16 ∧
      (∀ k : Fin HBAO_RANDOM_ELEMENTS,
        readEntry hbaoRandom k.val = some (hbaoRandom k) ∧
        (drawBlocks trace)[k.val]?.bind dispatchOfBlock =
          some { sliceIndex := (k.val : ℚ)
                 offset := { x := ((k.val % 4 : Nat) : ℚ) + 1 / 2
                             y := ((k.val / 4 : Nat) : ℚ) + 1 / 2 }
                 rotation := hbaoRandom k
                 outputTexture := TextureID.hbao2_resultarray
                 outputLayer := k.val }) ∧
      (drawBlocks trace).map layerBindings =
        (List.range HBAO_RANDOM_ELEMENTS).map
          (fun k => [(0, TextureID.hbao2_resultarray, k)]) ∧
      ((layerBindings trace).map (fun b => b.2.2)).Nodup := by
  have hread : ∀ k : Fin HBAO_RANDOM_ELEMENTS,
      readEntry hbaoRandom k.val = some (hbaoRandom k) := by
    intro k
    simp [readEntry, k.isLt]
  refine ⟨_, ssaocalcLoop_trace hbaoRandom, ?_, ?_, ?_, ?_, ?_⟩
  · rw [forIndices_slices]
    simp [ssaocalcSlice, readEntry, HBAO_RANDOM_ELEMENTS, HBAO_RANDOM_SIZE, drawCount]
  · rw [forIndices_slices]
    simp [ssaocalcSlice, readEntry, HBAO_RANDOM_ELEMENTS, HBAO_RANDOM_SIZE, drawBlocks]
  · intro k
    refine ⟨hread k, ?_⟩
    rw [forIndices_slices]
    fin_cases k <;>
      simp [ssaocalcSlice, readEntry, HBAO_RANDOM_ELEMENTS, HBAO_RANDOM_SIZE, drawBlocks,
        dispatchOfBlock]
  · rw [forIndices_slices]
    simp [ssaocalcSlice, readEntry, HBAO_RANDOM_ELEMENTS, HBAO_RANDOM_SIZE, drawBlocks,
      layerBindings, List.range, List.range.loop]
  · rw [forIndices_slices]
    simp [ssaocalcSlice, readEntry, HBAO_RANDOM_ELEMENTS, HBAO_RANDOM_SIZE, layerBindings]

/-! ## Quarter resolution -/

/-- Inside the range `0 <= w <= 2^31 - 4` the `int` expression `(w+3)/4` does not
wrap and is the mathematical quotient. -/
theorem quarterRes_eq_ediv (w : Int) (h0 : 0 ≤ w) (h1 : w ≤ 2147483644) :
    quarterRes w = (w + 3) / 4 := by
  have hwrap : wrapInt32 (w + 3) = w + 3 := by
    unfold wrapInt32
    omega
  unfold quarterRes
  rw [hwrap, Int.tdiv_eq_ediv (by omega) (by omega)]

/-- Inside the range `1 <= w <= 2^31 - 4`, `(w+3)/4` is the ceiling of `w/4`. -/
theorem quarterRes_eq_ceil (w : Int) (h0 : 1 ≤ w) (h1 : w ≤ 2147483644) :
    quarterRes w = ⌈(w : ℚ) / 4⌉ := by
  rw [quarterRes_eq_ediv w (by omega) h1]
  symm
  rw [Int.ceil_eq_iff]
  have hlo : 4 * ((w + 3) / 4 - 1) < w := by omega
  have hhi : w ≤ 4 * ((w + 3) / 4) := by omega
  have hlo' : (4 : ℚ) * ((((w + 3) / 4 : Int) : ℚ) - 1) < (w : ℚ) := by exact_mod_cast hlo
  have hhi' : (w : ℚ) ≤ 4 * (((w + 3) / 4 : Int) : ℚ) := by exact_mod_cast hhi
  constructor <;> linarith

/-- C12: for `1 <= width, height <= 2^31 - 4` the `int` expression `(w+3)/4` is
`ceil(w/4)`, so `4*(q-1) < w <= 4*q` and `q >= 1`; and the three uses agree:
`initFramebuffers` allocates slices of `ceil(width/4) x ceil(height/4)`,
`prepareHbaoData` stores the inverses of these two numbers, and
`drawHbaoCacheAware` sets the viewport of the sliced passes to them. -/
theorem quarterRes_is_ceiling (tanf : ℚ → ℚ) (tweak : Tweak) (hbaoUbo : HBAOData)
    (hbaoRandom : RandomTable ℚ) (projection : Projection) (width height : Int)
    (hw : 1 ≤ width ∧ width ≤ 2147483644) (hh : 1 ≤ height ∧ height ≤ 2147483644) :
    (quarterRes width = ⌈(width : ℚ) / 4⌉ ∧ quarterRes height = ⌈(height : ℚ) / 4⌉) ∧
    (4 * (quarterRes width - 1) < width ∧ width ≤ 4 * quarterRes width ∧
      1 ≤ quarterRes width) ∧
    (4 * (quarterRes height - 1) < height ∧ height ≤ 4 * quarterRes height ∧
      1 ≤ quarterRes height) ∧
    sliceArrayStorage width height =
      (⌈(width : ℚ) / 4⌉, ⌈(height : ℚ) / 4⌉, HBAO_RANDOM_ELEMENTS) ∧
    (prepareHbaoData tanf tweak hbaoUbo projection width height).InvQuarterResolution =
      { x := 1 / ((⌈(width : ℚ) / 4⌉ : Int) : ℚ), y := 1 / ((⌈(height : ℚ) / 4⌉ : Int) : ℚ) } ∧
    (∃ trace,
      (drawHbaoCacheAware tanf tweak hbaoUbo hbaoRandom projection width height).2 =
        some trace ∧
      (trace.filter fun c => c matches .Viewport _ _ _ _) =
        [ .Viewport 0 0 ⌈(width : ℚ) / 4⌉ ⌈(height : ℚ) / 4⌉,
          .Viewport 0 0 ⌈(width : ℚ) / 4⌉ ⌈(height : ℚ) / 4⌉,
          .Viewport 0 0 width height ]) := by
  have cw := quarterRes_eq_ceil width hw.1 hw.2
  have ch := quarterRes_eq_ceil height hh.1 hh.2
  have ew := quarterRes_eq_ediv width (by omega) hw.2
  have eh := quarterRes_eq_ediv height (by omega) hh.2
  refine ⟨⟨cw, ch⟩, ?_, ?_, ?_, ?_, ?_⟩
  · rw [ew]; omega
  · rw [eh]; omega
  · simp only [sliceArrayStorage, cw, ch]
  · simp only [prepareHbaoData, cw, ch]
  · simp only [drawHbaoCacheAware, ssaocalcPass, ssaocalcLoop_trace, Option.map_some']
    refine ⟨_, rfl, ?_⟩
    rw [forIndices_slices, ← cw, ← ch]
    simp only [deinterleavePass, deinterleaveLoop, forIndices_batches]
    simp [drawLinearDepth, viewnormalPass, deinterleavePass, deinterleaveLoop,
      deinterleaveBatch, forIndices_batches, forIndices_targets, reinterleavePass,
      drawHbaoBlur, ssaocalcSlice, readEntry, HBAO_RANDOM_ELEMENTS, HBAO_RANDOM_SIZE,
      List.filter_cons]

/-- Witness of C12 at the sample size 1280 x 720: the slices are 320 x 180. -/
theorem quarterRes_is_ceiling_witness :
    ((1 ≤ (1280 : Int) ∧ (1280 : Int) ≤ 2147483644) ∧
      (1 ≤ (720 : Int) ∧ (720 : Int) ≤ 2147483644)) ∧
    (quarterRes 1280 = ⌈((1280 : Int) : ℚ) / 4⌉ ∧ quarterRes 720 = ⌈((720 : Int) : ℚ) / 4⌉) ∧
    (4 * (quarterRes 1280 - 1) < 1280 ∧ 1280 ≤ 4 * quarterRes 1280 ∧ 1 ≤ quarterRes 1280) :=
  ⟨by decide,
    (quarterRes_is_ceiling (fun _ => 1) Tweak.default HBAOData.zero (fun _ => ⟨1, 0, 0, 0⟩)
      Projection.symmetric 1280 720 (by decide) (by decide)).1,
    (quarterRes_is_ceiling (fun _ => 1) Tweak.default HBAOData.zero (fun _ => ⟨1, 0, 0, 0⟩)
      Projection.symmetric 1280 720 (by decide) (by decide)).2.1⟩

/-! ## Division safety of `prepareHbaoData` -/

/-- C14: for every projection, size and tunables `prepareHbaoData` sets
`projOrtho = 0` and `projInfo` to the perspective vector
`(2/P[0], 2/P[5], -(1 - P[8])/P[0], -(1 + P[9])/P[5])`, and uses the perspective
scale `height / (tanf(fov*0.5)*2)`. The output does not depend on `P[12]` and
`P[13]`, the entries that only the orthographic vector reads. -/
theorem prepareHbaoData_never_ortho (tanf : ℚ → ℚ) (tweak : Tweak) (hbaoUbo : HBAOData)
    (projection : Projection) (width height : Int) :
    (prepareHbaoData tanf tweak hbaoUbo projection width height).projOrtho = 0 ∧
    (prepareHbaoData tanf tweak hbaoUbo projection width height).projInfo =
      { x := 2 / projection.matrix 0
        y := 2 / projection.matrix 5
        z := -(1 - projection.matrix 8) / projection.matrix 0
        w := -(1 + projection.matrix 9) / projection.matrix 5 } ∧
    (prepareHbaoData tanf tweak hbaoUbo projection width height).RadiusToScreen =
      tweak.radius * (1 / 2) * ((height : ℚ) / (tanf (projection.fov * (1 / 2)) * 2)) ∧
    (∀ a b : ℚ,
      prepareHbaoData tanf tweak hbaoUbo
        { projection with
          matrix := Function.update (Function.update projection.matrix 12 a) 13 b }
        width height =
      prepareHbaoData tanf tweak hbaoUbo projection width height) := by
  have e0 : (4 * 0 + 0 : Fin 16) = 0 := by decide
  have e5 : (4 * 1 + 1 : Fin 16) = 5 := by decide
  have e8 : (4 * 2 + 0 : Fin 16) = 8 := by decide
  have e9 : (4 * 2 + 1 : Fin 16) = 9 := by decide
  refine ⟨rfl, ?_, ?_, ?_⟩
  · simp only [prepareHbaoData, e0, e5, e8, e9, ne_eq, not_true_eq_false, if_false]
  · simp [prepareHbaoData]
  · intro a b
    have h0 : Function.update (Function.update projection.matrix 12 a) 13 b (4 * 0 + 0) =
        projection.matrix (4 * 0 + 0) := by
      rw [Function.update_noteq (by decide), Function.update_noteq (by decide)]
    have h5 : Function.update (Function.update projection.matrix 12 a) 13 b (4 * 1 + 1) =
        projection.matrix (4 * 1 + 1) := by
      rw [Function.update_noteq (by decide), Function.update_noteq (by decide)]
    have h8 : Function.update (Function.update projection.matrix 12 a) 13 b (4 * 2 + 0) =
        projection.matrix (4 * 2 + 0) := by
      rw [Function.update_noteq (by decide), Function.update_noteq (by decide)]
    have h9 : Function.update (Function.update projection.matrix 12 a) 13 b (4 * 2 + 1) =
        projection.matrix (4 * 2 + 1) := by
      rw [Function.update_noteq (by decide), Function.update_noteq (by decide)]
    simp only [prepareHbaoData, ne_eq, not_true_eq_false, if_false, h0, h5, h8, h9]

/-! ## The batch base offset -/

/-- C15: for every batch start `i` of the deinterleave loop (0 and 8) and every
output target `l < 8`, the batch uploads the base offset `(i%4 + 0.5, i/4 + 0.5)`
and binds target `l` to slice `i + l`, and the offset of that slice is
`((i+l) % 4, (i+l) / 4) = (i%4 + l%4, i/4 + l/4)`: the base offset plus a term that
depends on `l` only. -/
theorem deinterleaveBatch_offset (hbaoUbo : HBAOData) (i l : Nat)
    (hi : i ∈ forIndices HBAO_RANDOM_ELEMENTS NUM_MRT 0) (hl : l < NUM_MRT) :
    GLCmd.Uniform4f 0 (((i % 4 : Nat) : ℚ) + 1 / 2) (((i / 4 : Nat) : ℚ) + 1 / 2)
        hbaoUbo.InvFullResolution.x hbaoUbo.InvFullResolution.y
      ∈ deinterleaveBatch hbaoUbo i ∧
    GLCmd.FramebufferTextureLayer l .hbao2_deptharray 0 (i + l) ∈ deinterleaveBatch hbaoUbo i ∧
    ((i + l) % 4 = i % 4 + l % 4 ∧ (i + l) / 4 = i / 4 + l / 4) ∧
    ((((i + l) % 4 : Nat) : ℚ) + 1 / 2 = (((i % 4 : Nat) : ℚ) + 1 / 2) + ((l % 4 : Nat) : ℚ) ∧
      ((((i + l) / 4 : Nat) : ℚ) + 1 / 2 =
        (((i / 4 : Nat) : ℚ) + 1 / 2) + ((l / 4 : Nat) : ℚ))) ∧
    (∀ qx qy : Nat,
      fullResPos (i + l, qx, qy) = (qx * 4 + (i % 4 + l % 4), qy * 4 + (i / 4 + l / 4))) := by
  rw [forIndices_batches] at hi
  simp only [NUM_MRT] at hl
  have hi4 : i % 4 = 0 := by
    simp only [List.mem_cons, List.mem_singleton, List.not_mem_nil, or_false] at hi
    omega
  have hmod : (i + l) % 4 = i % 4 + l % 4 := by omega
  have hdiv : (i + l) / 4 = i / 4 + l / 4 := by omega
  refine ⟨?_, ?_, ⟨hmod, hdiv⟩, ⟨?_, ?_⟩, ?_⟩
  · simp [deinterleaveBatch]
  · simp only [deinterleaveBatch, forIndices_targets]
    have hl8 : l = 0 ∨ l = 1 ∨ l = 2 ∨ l = 3 ∨ l = 4 ∨ l = 5 ∨ l = 6 ∨ l = 7 := by omega
    rcases hl8 with h | h | h | h | h | h | h | h <;> subst h <;> simp
  · rw [hmod]; push_cast; ring
  · rw [hdiv]; push_cast; ring
  · intro qx qy
    simp only [fullResPos, HBAO_RANDOM_SIZE, hmod, hdiv]

/-- Witness of C15 at the second batch (`i = 8`) and target `l = 5`: slice 13 has
offset `(1, 3) = (0 + 1, 2 + 1)`. -/
theorem deinterleaveBatch_offset_witness :
    (8 ∈ forIndices HBAO_RANDOM_ELEMENTS NUM_MRT 0 ∧ 5 < NUM_MRT) ∧
    ((8 + 5) % 4 = 8 % 4 + 5 % 4 ∧ (8 + 5) / 4 = 8 / 4 + 5 / 4) :=
  have hi : 8 ∈ forIndices HBAO_RANDOM_ELEMENTS NUM_MRT 0 := by
    rw [forIndices_batches]; decide
  ⟨⟨hi, by decide⟩, (deinterleaveBatch_offset HBAOData.zero 8 5 hi (by decide)).2.2.1⟩

/-! ## The frame (`think`) -/

/-- The AO pass always has a trace, and starts its seven stages in order. -/
theorem drawHbaoCacheAware_stages (tanf : ℚ → ℚ) (tweak : Tweak) (hbaoUbo : HBAOData)
    (hbaoRandom : RandomTable ℚ) (projection : Projection) (width height : Int) :
    ∃ ssao,
      (drawHbaoCacheAware tanf tweak hbaoUbo hbaoRandom projection width height).2 =
        some ssao ∧
      aoStages ssao =
        [ .depth_linearize, .viewnormal, .hbao2_deinterleave, .hbao2_calc_blur,
          .hbao2_reinterleave_blur, .hbao_blur, .hbao_blur2 ] := by
  simp only [drawHbaoCacheAware, ssaocalcPass, ssaocalcLoop_trace, Option.map_some']
  refine ⟨_, rfl, ?_⟩
  rw [forIndices_slices]
  simp only [deinterleavePass, deinterleaveLoop, forIndices_batches]
  simp [drawLinearDepth, viewnormalPass, deinterleaveBatch, forIndices_targets,
    reinterleavePass, drawHbaoBlur, ssaocalcSlice, readEntry, HBAO_RANDOM_ELEMENTS,
    HBAO_RANDOM_SIZE, aoStages, ProgramID.isAOStage]

/-- The AO stages of a concatenation of traces. -/
theorem aoStages_append (a b : List GLCmd) : aoStages (a ++ b) = aoStages a ++ aoStages b := by
  simp only [aoStages, List.filterMap_append]

/-- With valid programs a frame is the prologue, the scene draw, the whole AO pass
with its seven stages in order, the blit and the tweak bar. -/
theorem think_programs_valid (tanf : ℚ → ℚ) (perspective : ℚ → ℚ → ℚ → ℚ → mat4)
    (s : Sample) (input : FrameInput)
    (hvalid : (if input.keyR then input.validAfterReload else s.programsValid) = true) :
    ∃ ssao,
      (drawHbaoCacheAware tanf s.tweak s.hbaoUbo s.hbaoRandom
        (Projection.update perspective Projection.new input.width input.height)
        input.width input.height).2 = some ssao ∧
      (think tanf perspective s input).2 =
        some (thinkPrologue input
          ++ scenePass input.width input.height s.sceneTriangleIndices ++ ssao
          ++ blitPass input.width input.height ++ [GLCmd.TwDraw]) ∧
      aoStages (thinkPrologue input
          ++ scenePass input.width input.height s.sceneTriangleIndices ++ ssao
          ++ blitPass input.width input.height ++ [GLCmd.TwDraw]) =
        [ .depth_linearize, .viewnormal, .hbao2_deinterleave, .hbao2_calc_blur,
          .hbao2_reinterleave_blur, .hbao_blur, .hbao_blur2 ] := by
  obtain ⟨ssao, hs, hst⟩ := drawHbaoCacheAware_stages tanf s.tweak s.hbaoUbo s.hbaoRandom
    (Projection.update perspective Projection.new input.width input.height)
    input.width input.height
  refine ⟨ssao, hs, ?_, ?_⟩
  · unfold think
    cases hk : input.keyR
    · rw [hk] at hvalid
      simp only [Bool.false_eq_true, if_false] at hvalid
      simp only [Bool.false_eq_true, if_false, hvalid, Bool.not_true, hs, Option.map_some']
    · rw [hk] at hvalid
      simp only [if_true] at hvalid
      simp only [if_true, hvalid, Bool.not_true, Bool.false_eq_true, if_false, hs,
        Option.map_some']
  · rw [aoStages_append, aoStages_append, aoStages_append, aoStages_append, hst]
    cases input.keyR <;> simp [aoStages, thinkPrologue, scenePass, blitPass,
      ProgramID.isAOStage]

/-- C11, as stated, fails: with invalid programs (key R not pressed, size 1280 x 720)
`think` calls `processActions` and `waitEvents` and nothing else; its trace holds no
scene draw and no blit, whereas the scene draw and the blit hold one
`glDrawElements` and one `glBlitFramebuffer`. -/
theorem think_invalid_counterexample :
    (think (fun _ => 1) (fun _ _ _ _ => Projection.symmetric.matrix) (Sample.start false)
      { keyR := false, validAfterReload := false, width := 1280, height := 720 }).2 =
      some [GLCmd.ProcessActions, GLCmd.WaitEvents] ∧
    (sceneDrawCount [GLCmd.ProcessActions, GLCmd.WaitEvents] = 0 ∧
      blitCount [GLCmd.ProcessActions, GLCmd.WaitEvents] = 0) ∧
    (sceneDrawCount (scenePass 1280 720 36 ++ blitPass 1280 720) = 1 ∧
      blitCount (scenePass 1280 720 36 ++ blitPass 1280 720) = 1) ∧
    (think (fun _ => 1) (fun _ _ _ _ => Projection.symmetric.matrix) (Sample.start false)
      { keyR := false, validAfterReload := false, width := 1280, height := 720 }).2 ≠
      some (scenePass 1280 720 36 ++ blitPass 1280 720) := by
  have h : (think (fun _ => 1) (fun _ _ _ _ => Projection.symmetric.matrix)
      (Sample.start false)
      { keyR := false, validAfterReload := false, width := 1280, height := 720 }).2 =
      some [GLCmd.ProcessActions, GLCmd.WaitEvents] := by
    simp [think, thinkPrologue, Sample.start]
  refine ⟨h, ⟨?_, ?_⟩, ⟨?_, ?_⟩, ?_⟩
  · simp [sceneDrawCount]
  · simp [blitCount]
  · simp [sceneDrawCount, scenePass, blitPass]
  · simp [blitCount, scenePass, blitPass]
  · rw [h]
    simp [scenePass, blitPass]

/-- C11, amended: whenever the programs are not valid at the check of `think` (after
the reload that key R triggers), `think` issues none of the AO passes, and no scene
draw and no blit either: after `processActions` (and `reloadPrograms` on key R) it
calls `waitEvents` and returns. Its trace starts no AO stage, puts no program in use
and holds no draw, and `hbaoUbo` and `tweakLast` stay as they were. -/
theorem think_programs_invalid (tanf : ℚ → ℚ) (perspective : ℚ → ℚ → ℚ → ℚ → mat4)
    (s : Sample) (input : FrameInput)
    (hinvalid : (if input.keyR then input.validAfterReload else s.programsValid) = false) :
    (think tanf perspective s input).2 =
      some (GLCmd.ProcessActions :: (if input.keyR then [GLCmd.ReloadPrograms] else [])
        ++ [GLCmd.WaitEvents]) ∧
    (∀ trace, (think tanf perspective s input).2 = some trace →
      aoStages trace = [] ∧ (∀ p, GLCmd.UseProgram p ∉ trace) ∧
      drawCount trace = 0 ∧ sceneDrawCount trace = 0 ∧ blitCount trace = 0) ∧
    (think tanf perspective s input).1.hbaoUbo = s.hbaoUbo ∧
    (think tanf perspective s input).1.tweakLast = s.tweakLast := by
  have h : think tanf perspective s input =
      ((if input.keyR then { s with programsValid := input.validAfterReload } else s),
        some (thinkPrologue input ++ [GLCmd.WaitEvents])) := by
    unfold think
    cases hk : input.keyR
    · rw [hk] at hinvalid
      simp only [Bool.false_eq_true, if_false] at hinvalid
      simp only [Bool.false_eq_true, if_false, hinvalid, Bool.not_false, if_true]
    · rw [hk] at hinvalid
      simp only [if_true] at hinvalid
      simp only [if_true, hinvalid, Bool.not_false]
  rw [h]
  refine ⟨rfl, ?_, ?_, ?_⟩
  · intro trace ht
    simp only [Option.some.injEq] at ht
    subst ht
    cases input.keyR <;>
      simp [thinkPrologue, aoStages, drawCount, sceneDrawCount, blitCount]
  · cases input.keyR <;> simp
  · cases input.keyR <;> simp

/-- Witness of the amended C11: invalid programs that a reload on key R leaves
invalid; the calls are `processActions`, `reloadPrograms`, `waitEvents`. -/
theorem think_programs_invalid_witness :
    ((if ({ keyR := true, validAfterReload := false, width := 1280, height := 720 } :
          FrameInput).keyR
        then ({ keyR := true, validAfterReload := false, width := 1280, height := 720 } :
          FrameInput).validAfterReload
        else (Sample.start false).programsValid) = false) ∧
    (think (fun _ => 1) (fun _ _ _ _ => Projection.symmetric.matrix) (Sample.start false)
      { keyR := true, validAfterReload := false, width := 1280, height := 720 }).2 =
      some [GLCmd.ProcessActions, GLCmd.ReloadPrograms, GLCmd.WaitEvents] :=
  ⟨rfl, (think_programs_invalid (fun _ => 1) (fun _ _ _ _ => Projection.symmetric.matrix)
    (Sample.start false)
    { keyR := true, validAfterReload := false, width := 1280, height := 720 } rfl).1⟩

/-- Programs that are invalid when the frame starts but valid after the reload that
key R triggers: the frame runs the whole AO pass. -/
theorem think_reload_runs_ao (tanf : ℚ → ℚ) (perspective : ℚ → ℚ → ℚ → ℚ → mat4)
    (width height : Int) :
    ∃ trace,
      (think tanf perspective (Sample.start false)
        { keyR := true, validAfterReload := true, width := width, height := height }).2 =
        some trace ∧
      aoStages trace =
        [ .depth_linearize, .viewnormal, .hbao2_deinterleave, .hbao2_calc_blur,
          .hbao2_reinterleave_blur, .hbao_blur, .hbao_blur2 ] := by
  obtain ⟨ssao, _, ht, hst⟩ := think_programs_valid tanf perspective (Sample.start false)
    { keyR := true, validAfterReload := true, width := width, height := height } rfl
  exact ⟨_, ht, hst⟩

/-- On buffer dimensions up to `2^31 - 4` the `int` quarter size is the quarter size
of the layered buffers. -/
theorem quarterRes_eq_quarterDim (w : Nat) (h : w ≤ 2147483644) :
    quarterRes (w : Int) = (quarterDim w : Int) := by
  rw [quarterRes_eq_ediv (w : Int) (by omega) (by omega)]
  unfold quarterDim
  omega

end ssao
